import Mathlib

/-!
Verification development for the 2-7 Triple Draw poker hand manager.

This file shallowly embeds the chip-accounting and hand-evaluation core of
the repository: the lowball hand evaluator (`LowballHandEvaluator`), the pot
ledger (`Pot`, `PotManager`) and the chip-moving operations of the game
engine (`TripleDrawGameEngine`).  JavaScript numbers that are only ever
integers in the source are modelled as `Int` (or `Nat` where the source
guarantees non-negativity); mutable objects become explicit state records;
JavaScript exceptions become `Except String` / `Option` results.  Player
object references are modelled by their `id` string: within a hand the
engine threads one fixed array of player objects through every component,
so object identity and id identity coincide.
-/

/-! ### Cards and constants (src: constants.js) -/

inductive Suit
  | hearts | diamonds | clubs | spades
deriving DecidableEq, Repr

inductive Rank
  | two | three | four | five | six | seven | eight | nine
  | ten | jack | queen | king | ace
deriving DecidableEq, Repr

/-- Source `RankValues`: rank values for lowball comparison, Ace always high (14). -/
def RankValues : Rank → Int
  | .two => 2
  | .three => 3
  | .four => 4
  | .five => 5
  | .six => 6
  | .seven => 7
  | .eight => 8
  | .nine => 9
  | .ten => 10
  | .jack => 11
  | .queen => 12
  | .king => 13
  | .ace => 14

/-- List of all thirteen ranks (source `Ranks` object). -/
def allRanks : List Rank :=
  [.two, .three, .four, .five, .six, .seven, .eight, .nine,
   .ten, .jack, .queen, .king, .ace]

structure Card where
  rank : Rank
  suit : Suit
deriving DecidableEq, Repr

-- Source `LowballRank` constants (lower is better).
namespace LowballRank

def WHEEL : Nat := 1
def EIGHT_LOW : Nat := 2
def NINE_LOW : Nat := 3
def TEN_LOW : Nat := 4
def JACK_LOW : Nat := 5
def QUEEN_LOW : Nat := 6
def KING_LOW : Nat := 7
def ACE_LOW : Nat := 8
def PAIR : Nat := 9
def TWO_PAIR : Nat := 10
def THREE_OF_A_KIND : Nat := 11
def STRAIGHT : Nat := 12
def FLUSH : Nat := 13
def FULL_HOUSE : Nat := 14
def FOUR_OF_A_KIND : Nat := 15
def STRAIGHT_FLUSH : Nat := 16

end LowballRank

/-! ### Stable sorting

JavaScript's `Array.prototype.sort` with a consistent comparator is a stable
sort.  We embed it as a stable insertion sort by comparator: an element is
inserted after every element that compares strictly before it, so elements
that tie keep their original relative order. -/

def insertByCompare {α : Type} (cmp : α → α → Int) (a : α) : List α → List α
  | [] => [a]
  | b :: bs => if cmp b a < 0 then b :: insertByCompare cmp a bs else a :: b :: bs

def sortByCompare {α : Type} (cmp : α → α → Int) : List α → List α
  | [] => []
  | a :: as => insertByCompare cmp a (sortByCompare cmp as)

/-! ### LowballHandEvaluator (src: LowballHandEvaluator.js)

`parseCard` in the source merely converts string-formatted cards to
`{rank, suit}` objects; with a single `Card` type it is the identity and is
inlined below. -/

namespace LowballHandEvaluator

/-- Source `hasFlush`: builds per-suit counts and reports whether any suit
reaches a count of 5.  Equivalently: some card's suit occurs at least 5 times. -/
def hasFlush (cards : List Card) : Bool :=
  cards.any fun c => 5 ≤ cards.countP fun c2 => c2.suit == c.suit

/-- Source `hasStraight`: given the ascending-sorted rank values, checks every
window of five for consecutiveness, then checks the ace-low straight set
{14,2,3,4,5}. -/
def hasStraight (ranks : List Int) : Bool :=
  if ranks.length < 5 then false
  else if (List.range (ranks.length - 4)).any (fun i =>
      (List.range 4).all fun j =>
        ranks.getD (i + j + 1) 0 - ranks.getD (i + j) 0 == 1) then
    true
  else
    ranks.contains 14 && ranks.contains 2 && ranks.contains 3 &&
      ranks.contains 4 && ranks.contains 5

/-- Number of cards in `cards` of rank `r` (an entry of the source's
`rankCounts` object; absent ranks have count 0). -/
def rankCount (cards : List Card) (r : Rank) : Nat :=
  cards.countP fun c => c.rank == r

structure RankCountInfo where
  pairs : Nat
  trips : Nat
  quads : Nat
deriving DecidableEq, Repr

/-- Source `countRanks`: the number of distinct ranks occurring exactly 2, 3
and 4 times.  The source iterates over the ranks present in the hand; ranks
with count 0 contribute to none of the three tallies, so iterating over all
thirteen ranks is equivalent. -/
def countRanks (cards : List Card) : RankCountInfo :=
  { pairs := (allRanks.filter fun r => rankCount cards r == 2).length
    trips := (allRanks.filter fun r => rankCount cards r == 3).length
    quads := (allRanks.filter fun r => rankCount cards r == 4).length }

structure HandEvaluation where
  rank : Nat
  type : String
  values : List Int
  cards : List Card
deriving DecidableEq, Repr

/-- The source's `rankValues` local: map every card to its rank value and
sort ascending (`.sort((a, b) => a - b)`). -/
def sortedRankValues (cards : List Card) : List Int :=
  sortByCompare (fun a b => a - b) (cards.map fun c => RankValues c.rank)

/-- Source `evaluateHand`.  Throwing (`Hand must contain exactly 5 cards`)
is modelled by `none`.  The wheel test `rankValues.join(',') === '2,3,4,5,7'`
compares the sorted value list elementwise and is modelled as list equality. -/
def evaluateHand (cards : List Card) : Option HandEvaluation :=
  if cards.length ≠ 5 then none
  else
    let rc := countRanks cards
    let hFlush := hasFlush cards
    let rankValues := sortedRankValues cards
    let hStraight := hasStraight rankValues
    if 0 < rc.quads then
      some ⟨LowballRank.FOUR_OF_A_KIND, "four-of-a-kind", rankValues, cards⟩
    else if 0 < rc.trips ∧ 0 < rc.pairs then
      some ⟨LowballRank.FULL_HOUSE, "full-house", rankValues, cards⟩
    else if hFlush ∧ hStraight then
      some ⟨LowballRank.STRAIGHT_FLUSH, "straight-flush", rankValues, cards⟩
    else if hFlush then
      some ⟨LowballRank.FLUSH, "flush", rankValues, cards⟩
    else if hStraight then
      some ⟨LowballRank.STRAIGHT, "straight", rankValues, cards⟩
    else if 0 < rc.trips then
      some ⟨LowballRank.THREE_OF_A_KIND, "three-of-a-kind", rankValues, cards⟩
    else if 2 ≤ rc.pairs then
      some ⟨LowballRank.TWO_PAIR, "two-pair", rankValues, cards⟩
    else if rc.pairs = 1 then
      some ⟨LowballRank.PAIR, "pair", rankValues, cards⟩
    else
      let highCard := rankValues.getD 4 0
      if highCard = 7 ∧ rankValues = [2, 3, 4, 5, 7] then
        some ⟨LowballRank.WHEEL, "wheel", rankValues, cards⟩
      else if highCard = 8 then
        some ⟨LowballRank.EIGHT_LOW, "eight-low", rankValues, cards⟩
      else if highCard = 9 then
        some ⟨LowballRank.NINE_LOW, "nine-low", rankValues, cards⟩
      else if highCard = 10 then
        some ⟨LowballRank.TEN_LOW, "ten-low", rankValues, cards⟩
      else if highCard = 11 then
        some ⟨LowballRank.JACK_LOW, "jack-low", rankValues, cards⟩
      else if highCard = 12 then
        some ⟨LowballRank.QUEEN_LOW, "queen-low", rankValues, cards⟩
      else if highCard = 13 then
        some ⟨LowballRank.KING_LOW, "king-low", rankValues, cards⟩
      else
        some ⟨LowballRank.ACE_LOW, "ace-low", rankValues, cards⟩

/-- The value-comparison loop of the source `compare`: scan the sorted value
lists from index `i` downwards and decide at the first difference
(`for (let i = 4; i >= 0; i--) ...`). -/
def compareValuesDown (v1 v2 : List Int) : Nat → Int
  | 0 =>
    if v1.getD 0 0 ≠ v2.getD 0 0 then
      if v1.getD 0 0 < v2.getD 0 0 then -1 else 1
    else 0
  | i + 1 =>
    if v1.getD (i + 1) 0 ≠ v2.getD (i + 1) 0 then
      if v1.getD (i + 1) 0 < v2.getD (i + 1) 0 then -1 else 1
    else compareValuesDown v1 v2 i

/-- The body of the source `compare` applied to two already-computed
evaluations. -/
def compareEvals (eval1 eval2 : HandEvaluation) : Int :=
  if eval1.rank ≠ eval2.rank then
    if eval1.rank < eval2.rank then -1 else 1
  else
    compareValuesDown eval1.values eval2.values 4

/-- Source `compare`: evaluates both hands and compares; `none` models the
exception thrown for a malformed hand. -/
def compare (hand1 hand2 : List Card) : Option Int :=
  match evaluateHand hand1, evaluateHand hand2 with
  | some eval1, some eval2 => some (compareEvals eval1 eval2)
  | _, _ => none

/-- Hands fed to `findWinners`: a player identifier plus five cards.  The
source passes duck-typed records (`{playerId, cards}` from the engine,
`{player, cards}` from `calculatePayouts`); only the identifier and the
cards are consulted, so both are modelled by this record. -/
structure HandInfo where
  playerId : String
  cards : List Card
deriving DecidableEq, Repr

/-- The evaluation pass at the top of `findWinners`
(`hands.map(handInfo => ({...handInfo, evaluation: evaluateHand(...)}))`):
every hand is evaluated and a failure anywhere aborts (throws). -/
def evaluateAll : List HandInfo → Option (List HandEvaluation)
  | [] => some []
  | h :: rest =>
    match evaluateHand h.cards, evaluateAll rest with
    | some e, some es => some (e :: es)
    | _, _ => none

/-- Source `findWinners`: evaluate every hand (an evaluation failure anywhere
throws, modelled `none`), stably sort by `compare`, and collect the prefix of
hands that tie with the best (the source pushes winners and `break`s at the
first non-tie, i.e. `takeWhile`). -/
def findWinners (hands : List HandInfo) : Option (List HandInfo) :=
  if hands.isEmpty then some []
  else
    match evaluateAll hands with
    | none => none
    | some _ =>
      let sorted := sortByCompare (fun a b => (compare a.cards b.cards).getD 0) hands
      match sorted with
      | [] => some []
      | best :: _ =>
        some (sorted.takeWhile fun h => (compare best.cards h.cards).getD 1 == 0)

end LowballHandEvaluator

example :
    (LowballHandEvaluator.evaluateHand
      [⟨.seven, .hearts⟩, ⟨.five, .diamonds⟩, ⟨.four, .clubs⟩, ⟨.three, .spades⟩,
        ⟨.two, .hearts⟩]).map (fun e => (e.rank, e.type)) = some (1, "wheel") := by
  decide

example :
    (LowballHandEvaluator.evaluateHand
      [⟨.ace, .hearts⟩, ⟨.five, .diamonds⟩, ⟨.four, .clubs⟩, ⟨.three, .spades⟩,
        ⟨.two, .hearts⟩]).map (fun e => (e.rank, e.type)) = some (12, "straight") := by
  decide

example :
    LowballHandEvaluator.compare
      [⟨.seven, .hearts⟩, ⟨.five, .diamonds⟩, ⟨.four, .clubs⟩, ⟨.three, .spades⟩,
        ⟨.two, .hearts⟩]
      [⟨.eight, .hearts⟩, ⟨.six, .diamonds⟩, ⟨.four, .clubs⟩, ⟨.three, .spades⟩,
        ⟨.two, .hearts⟩] = some (-1) := by
  decide

/-! ### Players (src: Player.js, types/index.js)

The `Player` object's chip setter merely rounds the incoming number and
assigns it (it does not clamp), so chips are a plain `Int` here.  Direct
writes to the private `_chips` backing field perform the same integer
arithmetic. -/

inductive PlayerState
  | WAITING | ACTIVE | FOLDED | ALL_IN | SITTING_OUT | DISCONNECTED
deriving DecidableEq, Repr

-- Source enum `Action` (renamed: `Action` exists in Mathlib).
inductive GameAction
  | CHECK | BET | CALL | RAISE | FOLD | ALL_IN | DRAW | STAND_PAT
deriving DecidableEq, Repr

structure PlayerRec where
  id : String
  chips : Int
  bet : Int
  state : PlayerState
  hasActed : Bool
  lastAction : Option GameAction
  hasOption : Bool
deriving DecidableEq, Repr

/-- Source `ensureInteger` (validation.js): rounds (identity on integers,
which is all the engine ever passes) and clamps to non-negative via
`Math.max(0, intValue)`. -/
def ensureInteger (v : Int) : Int :=
  max 0 v

/-! ### Pot (src: packages/core/src/game/Pot.js)

`eligiblePlayers` holds references to the live player objects; the parts of
a pot's behaviour that only consult `p.id` use the stored id strings, and
the parts that consult the players' current `state` (only
`PotManager.handleAllIn`) look the ids up in the current player list, which
models the shared mutable objects.  The `contributions` map is keyed by
player object, which within a hand is keyed by id. -/

structure Pot where
  id : Nat
  amount : Nat
  eligiblePlayers : List String
  contributions : List (String × Nat)
  isActive : Bool
  maxContributionPerPlayer : Option Nat
deriving DecidableEq, Repr

namespace Pot

/-- Source `getPlayerContribution`: `contributions.get(player) || 0`. -/
def getPlayerContribution (pot : Pot) (pid : String) : Nat :=
  match pot.contributions.find? (fun e => e.1 == pid) with
  | some e => e.2
  | none => 0

def setContribution (pot : Pot) (pid : String) (v : Nat) : List (String × Nat) :=
  if pot.contributions.any (fun e => e.1 == pid) then
    pot.contributions.map fun e => if e.1 == pid then (pid, v) else e
  else
    pot.contributions ++ [(pid, v)]

/-- Source `addContribution`: returns the updated pot together with the
amount "actually contributed" that the source returns (which can be
negative when the pot is capped below the player's current contribution;
the mutation is guarded by `allowedAmount > 0`). -/
def addContribution (pot : Pot) (pid : String) (amount : Int) : Pot × Int :=
  let intAmount := ensureInteger amount
  if ¬ pot.eligiblePlayers.contains pid then (pot, 0)
  else
    let currentContribution := pot.getPlayerContribution pid
    let allowedAmount : Int :=
      match pot.maxContributionPerPlayer with
      | some maxC => min intAmount ((maxC : Int) - (currentContribution : Int))
      | none => intAmount
    if 0 < allowedAmount then
      ({ pot with
          contributions := pot.setContribution pid (currentContribution + allowedAmount.toNat)
          amount := pot.amount + allowedAmount.toNat },
        allowedAmount)
    else
      (pot, allowedAmount)

/-- Source `cap`: records the per-player cap and closes the pot. -/
def cap (pot : Pot) (maxPerPlayer : Int) : Pot :=
  { pot with
      maxContributionPerPlayer := some (ensureInteger maxPerPlayer).toNat
      isActive := false }

/-- Source `canAcceptFrom`. -/
def canAcceptFrom (pot : Pot) (pid : String) : Bool :=
  if ¬ pot.isActive then false
  else if ¬ pot.eligiblePlayers.contains pid then false
  else
    match pot.maxContributionPerPlayer with
    | some maxC => pot.getPlayerContribution pid < maxC
    | none => true

/-- Source `close`. -/
def close (pot : Pot) : Pot :=
  { pot with isActive := false }

end Pot

/-! ### PotManager (src: PotManager.js)

The manager's mutable fields are `players` (the shared player array),
`pots` and `nextPotId`. -/

structure PotManagerState where
  players : List PlayerRec
  pots : List Pot
  nextPotId : Nat
deriving DecidableEq, Repr

namespace PotManagerState

/-- Source `createPot` (the constructor runs `createPot(players)` once). -/
def createPot (pm : PotManagerState) (eligiblePlayers : List String) : PotManagerState :=
  { pm with
      pots := pm.pots ++ [{ id := pm.nextPotId, amount := 0,
                            eligiblePlayers := eligiblePlayers, contributions := [],
                            isActive := true, maxContributionPerPlayer := none }]
      nextPotId := pm.nextPotId + 1 }

/-- Source constructor `new PotManager(players)`. -/
def init (players : List PlayerRec) : PotManagerState :=
  createPot { players := players, pots := [], nextPotId := 0 } (players.map (·.id))

/-- Source `getActivePot`: the last pot with `isActive`. -/
def getActivePot (pm : PotManagerState) : Option Pot :=
  pm.pots.reverse.find? (·.isActive)

/-- The loop body of source `addToPot`: walk the pots in creation order,
offering each the remaining amount and stopping once nothing remains. -/
def addToPotLoop (pid : String) : List Pot → Int → List Pot × Int
  | [], remaining => ([], remaining)
  | pot :: rest, remaining =>
    if remaining ≤ 0 then (pot :: rest, remaining)
    else
      let (pot', contributed) := pot.addContribution pid remaining
      let remaining' := if 0 < contributed then remaining - contributed else remaining
      let (rest', finalRemaining) := addToPotLoop pid rest remaining'
      (pot' :: rest', finalRemaining)

/-- Source `addToPot`: returns the new state and `totalContributed`. -/
def addToPot (pm : PotManagerState) (pid : String) (amount : Int) : PotManagerState × Int :=
  let intAmount := ensureInteger amount
  let (pots', remaining) := addToPotLoop pid pm.pots intAmount
  ({ pm with pots := pots' }, intAmount - remaining)

/-- State of the player object referenced from a pot's eligible list: the
source reads `p.state` off the shared player objects, modelled by a lookup
in the manager's current player list. -/
def stateOf (pm : PotManagerState) (pid : String) : Option PlayerState :=
  (pm.players.find? (·.id == pid)).map (·.state)

/-- Source `handleAllIn`: caps the active pot at the all-in player's total
round contribution, then creates a side pot for the other still-active
players eligible for the capped pot (always when 2 or more remain; with
exactly 1 remaining only in a two-player game). -/
def handleAllIn (pm : PotManagerState) (pid : String) (totalAmount : Int) : PotManagerState :=
  match pm.getActivePot with
  | none => pm
  | some activePot =>
    if ¬ activePot.canAcceptFrom pid then pm
    else
      let currentPotContribution := activePot.getPlayerContribution pid
      let maxContributionThisRound := totalAmount
      if activePot.isActive ∧ (currentPotContribution : Int) < maxContributionThisRound then
        let capped := activePot.cap maxContributionThisRound
        let pm' := { pm with
          pots := pm.pots.map fun p => if p.id = activePot.id then capped else p }
        let stillActivePlayers := activePot.eligiblePlayers.filter fun q =>
          q != pid && pm.stateOf q == some PlayerState.ACTIVE
        let isHeadsUpGame := pm.players.length = 2
        if 2 ≤ stillActivePlayers.length ∨
            (stillActivePlayers.length = 1 ∧ isHeadsUpGame) then
          pm'.createPot stillActivePlayers
        else pm'
      else pm

/-- Source `getTotalPot`. -/
def getTotalPot (pm : PotManagerState) : Nat :=
  (pm.pots.map (·.amount)).sum

/-- Source `endBettingRound`: closes every capped pot. -/
def endBettingRound (pm : PotManagerState) : PotManagerState :=
  { pm with
      pots := pm.pots.map fun pot =>
        if pot.maxContributionPerPlayer ≠ none then pot.close else pot }

end PotManagerState

open LowballHandEvaluator in
/-- The payout distribution loop of source `calculatePayouts`: each winner
receives `share`, and while `remainder > 0` a winner receives one extra chip
and the remainder decrements. -/
def distributeShares (share : Nat) : List LowballHandEvaluator.HandInfo → Nat →
    List (String × Nat)
  | [], _ => []
  | w :: rest, remainder =>
    if 0 < remainder then (w.playerId, share + 1) :: distributeShares share rest (remainder - 1)
    else (w.playerId, share) :: distributeShares share rest remainder

open LowballHandEvaluator in
/-- The per-pot body of source `calculatePayouts`: restrict the supplied
hands to the pot's eligible players, fall back to all hands when that
restriction is empty, find the winners, and split the pot amount with
integer share plus one-chip remainders.  `none` models a hand-evaluation
exception. -/
def potPayouts (pot : Pot) (allPlayerHands : List LowballHandEvaluator.HandInfo) :
    Option (List (String × Nat)) :=
  let eligibleHands := allPlayerHands.filter fun ph =>
    pot.eligiblePlayers.contains ph.playerId
  let candidateHands := if eligibleHands.isEmpty then allPlayerHands else eligibleHands
  match findWinners candidateHands with
  | none => none
  | some bestHands =>
    if 0 < bestHands.length then
      some (distributeShares (pot.amount / bestHands.length) bestHands
        (pot.amount % bestHands.length))
    else
      some []

/-- Merge one pot's payout list into the accumulated payout map
(`payouts.get(winner.player) || 0` plus the win amount). -/
def mergePayouts (acc : List (String × Nat)) : List (String × Nat) → List (String × Nat)
  | [] => acc
  | (pid, amt) :: rest =>
    let acc' :=
      if acc.any (fun e => e.1 == pid) then
        acc.map fun e => if e.1 == pid then (pid, e.2 + amt) else e
      else acc ++ [(pid, amt)]
    mergePayouts acc' rest

/-- Source `PotManager.calculatePayouts`: processes each pot separately with
`potPayouts` and accumulates the per-player totals. -/
def PotManagerState.calculatePayouts (pm : PotManagerState)
    (allPlayerHands : List LowballHandEvaluator.HandInfo) :
    Option (List (String × Nat)) :=
  pm.pots.foldlM (fun acc pot => (potPayouts pot allPlayerHands).map (mergePayouts acc)) []

/-! ### TripleDrawGameEngine (src: TripleDrawGameEngine.js)

The engine's mutable state: the shared player array, the pot manager's pots
(one ledger per hand), the phase, betting counters and per-player hands.
The deck is an external collaborator; dealing is modelled by supplying the
dealt hands to `initializeHand`.  Events are observations and are not
modelled. -/

inductive GamePhase
  | WAITING | PRE_DRAW | FIRST_DRAW | POST_FIRST_DRAW | SECOND_DRAW
  | POST_SECOND_DRAW | THIRD_DRAW | POST_THIRD_DRAW | SHOWDOWN | ENDED
deriving DecidableEq, Repr

structure EngineConfig where
  smallBlind : Nat
  bigBlind : Nat
  limitBetting : Bool
  betLimit : Int
  allowNegativeChips : Bool
  isDeadButton : Bool
  smallBlindPlayerIndex : Nat
  bigBlindPlayerIndex : Nat
deriving DecidableEq, Repr

instance : Inhabited PlayerRec :=
  ⟨{ id := "", chips := 0, bet := 0, state := .ACTIVE, hasActed := false,
     lastAction := none, hasOption := false }⟩

structure EngineState where
  config : EngineConfig
  players : List PlayerRec
  pots : List Pot
  nextPotId : Nat
  phase : GamePhase
  dealerButtonIndex : Nat
  currentPlayerIndex : Nat
  drawsRemaining : Nat
  playerHands : List (String × List Card)
  lastRaiser : Option String
  bettingCapped : Bool
  raisesInRound : Nat
deriving DecidableEq, Repr

/-- The action record handed to `handleAction`: `{action, amount}` where
`amount` may be absent (`ensureInteger(undefined)` is 0). -/
structure ActionData where
  action : GameAction
  amount : Option Int
deriving DecidableEq, Repr

def ensureIntegerOpt : Option Int → Int
  | none => 0
  | some v => ensureInteger v

namespace EngineState

/-- Mutation of the one player object with this id (ids are unique within a
hand's player array). -/
def updatePlayer (st : EngineState) (pid : String) (f : PlayerRec → PlayerRec) :
    EngineState :=
  { st with players := st.players.map fun p => if p.id == pid then f p else p }

/-- Dereference the player object passed into an engine method.  The engine
only ever passes players from its own array, so the default is never
consulted in the runs the theorems describe. -/
def getPlayer (st : EngineState) (pid : String) : PlayerRec :=
  (st.players.find? (·.id == pid)).getD default

/-- Source `getCurrentBet`: `Math.max(...bets, 0)`. -/
def getCurrentBet (st : EngineState) : Int :=
  (st.players.map (·.bet)).foldr max 0

/-- Source `getTotalPot` on the engine's pot manager. -/
def getTotalPot (st : EngineState) : Nat :=
  (st.pots.map (·.amount)).sum

/-- Sum of all players' chips (the quantity conserved by the zero-sum
specification property). -/
def chipSum (st : EngineState) : Int :=
  (st.players.map (·.chips)).sum

/-- The engine's call into `PotManager.addToPot` (return value discarded at
every engine call site). -/
def addToPot (st : EngineState) (pid : String) (amount : Int) : EngineState :=
  let intAmount := ensureInteger amount
  let (pots', _) := PotManagerState.addToPotLoop pid st.pots intAmount
  { st with pots := pots' }

/-- Source `getValidActions`. -/
def getValidActions (st : EngineState) (player : PlayerRec) : List GameAction :=
  let currentBet := st.getCurrentBet
  let toCall := currentBet - player.bet
  let isBettingCapped :=
    st.bettingCapped ∨ (st.config.limitBetting ∧ 4 ≤ st.raisesInRound)
  let base : List GameAction :=
    if toCall = 0 then
      [GameAction.CHECK] ++ (if ¬ isBettingCapped then [GameAction.BET] else [])
    else
      [GameAction.FOLD] ++
        (if toCall ≤ player.chips then
          [GameAction.CALL] ++ (if ¬ isBettingCapped then [GameAction.RAISE] else [])
        else [])
  base ++ (if 0 < player.chips ∧ ¬ st.config.limitBetting then [GameAction.ALL_IN] else [])

/-- Source `handleAction`: the per-action switch followed by the
`hasActed`/`lastAction` bookkeeping and the advance of
`currentPlayerIndex`.  Thrown errors are `Except.error` with the source's
message; the recursive re-prompt of the next player is not part of this
single-mutation step. -/
def handleAction (st : EngineState) (pid : String) (actionData : ActionData) :
    Except String EngineState :=
  let player := st.getPlayer pid
  let afterSwitch : Except String EngineState :=
    match actionData.action with
    | .FOLD =>
      .ok (st.updatePlayer pid fun p => { p with state := .FOLDED })
    | .CHECK =>
      if player.bet < st.getCurrentBet then
        .error "Cannot check when there is a bet to match"
      else .ok st
    | .CALL =>
      let callAmount := st.getCurrentBet - player.bet
      let actualCall :=
        if st.config.allowNegativeChips then callAmount else min callAmount player.chips
      let st1 := st.updatePlayer pid fun p =>
        { p with chips := p.chips - actualCall, bet := p.bet + actualCall }
      let st2 := st1.addToPot pid actualCall
      if (st2.getPlayer pid).chips ≤ 0 ∧ ¬ st.config.allowNegativeChips then
        .ok (st2.updatePlayer pid fun p => { p with state := .ALL_IN })
      else .ok st2
    | .BET | .RAISE =>
      let raiseAmount := ensureIntegerOpt actionData.amount
      if st.config.limitBetting ∧ 4 ≤ st.raisesInRound then
        .error "Betting is capped in this round"
      else if st.config.limitBetting ∧ raiseAmount ≠ st.config.betLimit then
        .error ("Raise must be exactly " ++ toString st.config.betLimit)
      else
        let st1 := st.updatePlayer pid fun p =>
          { p with chips := p.chips - raiseAmount, bet := p.bet + raiseAmount }
        let st2 := st1.addToPot pid raiseAmount
        let st3 :=
          if (st2.getPlayer pid).chips = 0 then
            st2.updatePlayer pid fun p => { p with state := .ALL_IN }
          else st2
        let newRaises := st.raisesInRound + 1
        let st4 := { st3 with
          lastRaiser := some pid
          raisesInRound := newRaises
          bettingCapped :=
            if st.config.limitBetting ∧ 4 ≤ newRaises then true else st3.bettingCapped }
        .ok { st4 with
          players := st4.players.map fun p =>
            if p.id ≠ pid ∧ p.state = .ACTIVE then { p with hasActed := false } else p }
    | .ALL_IN =>
      let allInAmount := player.chips
      let st1 := st.updatePlayer pid fun p =>
        { p with chips := 0, bet := p.bet + allInAmount, state := .ALL_IN }
      .ok (st1.addToPot pid allInAmount)
    | _ => .ok st
  match afterSwitch with
  | .error e => .error e
  | .ok st' =>
    let st'' := st'.updatePlayer pid fun p =>
      { p with hasActed := true, lastAction := some actionData.action }
    .ok { st'' with
      currentPlayerIndex := (st''.currentPlayerIndex + 1) % st''.players.length }

end EngineState

/-- Terminating counterpart of the source's
`while (players[idx].state !== ACTIVE) idx = (idx+1) % n` scan (the source
loop never terminates when no player is active; the engine only runs it
with at least one active player). -/
def nextActiveIndexFrom (players : List PlayerRec) (start : Nat) : Nat :=
  match (List.range players.length).find? (fun k =>
      (players.getD ((start + k) % players.length) default).state = .ACTIVE) with
  | some k => (start + k) % players.length
  | none => start

namespace EngineState

/-- Source `postBlinds`: computes blind seats (dead-button override,
heads-up swap, or the two seats after the button), debits and posts both
blinds (clamped to the stack unless negative chips are allowed, in which
case the full blind is debited through the `_chips` backing field), and
sets the first player to act. -/
def postBlinds (st : EngineState) : Except String EngineState :=
  let activeCount := (st.players.filter (·.state = .ACTIVE)).length
  if activeCount < 2 then
    .error "Not enough active players to post blinds"
  else
    let n := st.players.length
    let sbIndex :=
      if st.config.isDeadButton then st.config.smallBlindPlayerIndex
      else if activeCount = 2 then st.dealerButtonIndex
      else (st.dealerButtonIndex + 1) % n
    let bbIndex :=
      if st.config.isDeadButton then st.config.bigBlindPlayerIndex
      else if activeCount = 2 then (st.dealerButtonIndex + 1) % n
      else (st.dealerButtonIndex + 2) % n
    let sbPlayer := st.players.getD sbIndex default
    let sbAmount : Int :=
      if st.config.allowNegativeChips then st.config.smallBlind
      else min sbPlayer.chips st.config.smallBlind
    let st1 := st.updatePlayer sbPlayer.id fun p =>
      { p with chips := p.chips - sbAmount, bet := sbAmount }
    let st2 := st1.addToPot sbPlayer.id sbAmount
    let bbPlayer := st2.players.getD bbIndex default
    let bbAmount : Int :=
      if st.config.allowNegativeChips then st.config.bigBlind
      else min bbPlayer.chips st.config.bigBlind
    let st3 := st2.updatePlayer bbPlayer.id fun p =>
      { p with chips := p.chips - bbAmount, bet := bbAmount, hasOption := true }
    let st4 := st3.addToPot bbPlayer.id bbAmount
    .ok { st4 with currentPlayerIndex := nextActiveIndexFrom st4.players ((bbIndex + 1) % n) }

/-- Source `initializeHand` (chip-relevant portion): reset the draw counter
and hands, build a fresh pot manager over the current players, reset every
player's per-hand fields, deal (`dealtHands` stands for the cards produced
by the external deck) and post blinds; the phase becomes `PRE_DRAW`. -/
def initializeHand (st : EngineState) (dealtHands : List (String × List Card)) :
    Except String EngineState :=
  let pm := PotManagerState.init st.players
  let st1 := { st with
    drawsRemaining := 3
    playerHands := dealtHands
    pots := pm.pots
    nextPotId := pm.nextPotId
    players := st.players.map fun p : PlayerRec =>
      { p with state := .ACTIVE, bet := 0, hasActed := false,
               lastAction := none, hasOption := false } }
  match st1.postBlinds with
  | .error e => .error e
  | .ok st2 => .ok { st2 with phase := .PRE_DRAW }

/-- Source `startBettingRound` (state-resetting portion). -/
def startBettingRound (st : EngineState) : EngineState :=
  { st with
      lastRaiser := none
      bettingCapped := false
      raisesInRound := 0
      players := st.players.map fun p =>
        if p.state = .ACTIVE then { p with hasActed := false } else p }

/-- Source `endBettingRound` (state-resetting portion; the async phase
transition that follows is driven explicitly in the theorems). -/
def endBettingRound (st : EngineState) : EngineState :=
  { st with players := st.players.map fun p =>
      { p with bet := 0, hasActed := false, hasOption := false } }

/-- Source `isBettingComplete`. -/
def isBettingComplete (st : EngineState) : Bool :=
  let activePlayers := st.players.filter (·.state = .ACTIVE)
  if activePlayers.length ≤ 1 then true
  else
    let currentBet := st.getCurrentBet
    activePlayers.all fun p => p.hasActed ∧ ¬ (p.bet < currentBet ∧ p.state = .ACTIVE)

/-- The hand stored for a player (`playerHands.get(player.id)`). -/
def handOf (st : EngineState) (pid : String) : List Card :=
  match st.playerHands.find? (fun e => e.1 == pid) with
  | some e => e.2
  | none => []

open LowballHandEvaluator in
/-- Source `showdown`: with exactly one active player they collect the whole
pot; otherwise the active hands go to `findWinners` and every winner
receives `Math.floor(pot / winners.length)` — the engine neither consults
`calculatePayouts` nor clears the pot ledger.  `none` models a
hand-evaluation exception. -/
def showdown (st : EngineState) : Option EngineState :=
  let st0 : EngineState := { st with phase := GamePhase.SHOWDOWN }
  let activePlayers := st0.players.filter (·.state = .ACTIVE)
  if activePlayers.length = 1 then
    let winner := activePlayers.getD 0 default
    let pot := st0.getTotalPot
    let st1 := st0.updatePlayer winner.id fun p => { p with chips := p.chips + pot }
    some { st1 with phase := GamePhase.ENDED }
  else
    let hands := activePlayers.map fun p => HandInfo.mk p.id (st0.handOf p.id)
    match findWinners hands with
    | none => none
    | some winners =>
      let pot := st0.getTotalPot
      let splitAmount := pot / winners.length
      let st1 := winners.foldl (fun s w =>
        s.updatePlayer w.playerId fun p => { p with chips := p.chips + splitAmount }) st0
      some { st1 with phase := GamePhase.ENDED }

/-- The try/catch around `handleAction` inside source `promptNextPlayer`:
on any error (timeout or a thrown illegal-action error) the engine handles
a FOLD for the player instead.  The FOLD branch never throws, so the catch
always succeeds. -/
def promptOutcome (st : EngineState) (pid : String) (a : ActionData) : EngineState :=
  match st.handleAction pid a with
  | .ok s => s
  | .error _ =>
    match st.handleAction pid ⟨GameAction.FOLD, none⟩ with
    | .ok s => s
    | .error _ => st

end EngineState

/-! ### Draw requests (src: getDrawRequest) -/

structure DrawRequest where
  standPat : Bool
  cardsToDiscard : Nat
  discardIndices : List Nat
deriving DecidableEq, Repr

/-- Source `DEFAULT_CONFIG.MAX_DISCARD`. -/
def MAX_DISCARD : Nat := 5

/-- Source `getDefaultDiscardIndices`: the first `count` indices. -/
def getDefaultDiscardIndices (count : Nat) : List Nat :=
  List.range count

/-- The body of source `getDrawRequest`'s `try` block: stand pat on 0,
reject discards above `MAX_DISCARD` with the source's message, otherwise
record the request. -/
def getDrawRequestInner (cardsToDiscard : Nat) (discardIndices : Option (List Nat)) :
    Except String DrawRequest :=
  if cardsToDiscard = 0 then .ok ⟨true, 0, []⟩
  else if MAX_DISCARD < cardsToDiscard then
    .error "Cannot discard more than 5 cards"
  else
    .ok ⟨false, cardsToDiscard, discardIndices.getD (getDefaultDiscardIndices cardsToDiscard)⟩

/-- Source `getDrawRequest` including its catch: on error (or timeout) the
recorded request is a stand-pat. -/
def getDrawRequestOutcome (cardsToDiscard : Nat) (discardIndices : Option (List Nat)) :
    DrawRequest :=
  match getDrawRequestInner cardsToDiscard discardIndices with
  | .ok r => r
  | .error _ => ⟨true, 0, []⟩

/-! ### Concrete hand scenarios

Helper constructors for concrete runs of the engine.  Draw phases move no
chips (discard requests only exchange cards), so the runs below drive the
chip-moving mutations: blind posting, betting actions, round resets and the
showdown. -/

def mkPlayer (i : String) (c : Int) : PlayerRec :=
  { id := i, chips := c, bet := 0, state := .ACTIVE, hasActed := false,
    lastAction := none, hasOption := false }

/-- A limit-betting configuration: blinds 5/10, `betLimit` 10 (the default,
`config.betLimit || config.blinds.big`), negative chips disallowed. -/
def limitConfig : EngineConfig :=
  { smallBlind := 5, bigBlind := 10, limitBetting := true, betLimit := 10,
    allowNegativeChips := false, isDeadButton := false,
    smallBlindPlayerIndex := 0, bigBlindPlayerIndex := 0 }

def wheelHandA : List Card :=
  [⟨.seven, .hearts⟩, ⟨.five, .diamonds⟩, ⟨.four, .clubs⟩, ⟨.three, .spades⟩,
   ⟨.two, .hearts⟩]

def wheelHandB : List Card :=
  [⟨.seven, .clubs⟩, ⟨.five, .spades⟩, ⟨.four, .hearts⟩, ⟨.three, .diamonds⟩,
   ⟨.two, .clubs⟩]

def wheelHandC : List Card :=
  [⟨.seven, .diamonds⟩, ⟨.five, .hearts⟩, ⟨.four, .spades⟩, ⟨.three, .clubs⟩,
   ⟨.two, .diamonds⟩]

def junkHand : List Card :=
  [⟨.king, .hearts⟩, ⟨.queen, .diamonds⟩, ⟨.nine, .clubs⟩, ⟨.eight, .spades⟩,
   ⟨.six, .hearts⟩]

/-- Run a list of betting actions through `handleAction`, stopping at any
thrown error. -/
def roundSeq (st : EngineState) : List (String × ActionData) → Option EngineState
  | [] => some st
  | (pid, a) :: rest =>
    match st.handleAction pid a with
    | .error _ => none
    | .ok s => roundSeq s rest

/-- One full betting round: the reset performed by `startBettingRound`, the
players' actions in prompt order, then `endBettingRound`. -/
def playRound (acts : List (String × ActionData)) (st : EngineState) :
    Option EngineState :=
  match roundSeq st.startBettingRound acts with
  | none => none
  | some s => some s.endBettingRound

/-- Scenario for C1: three players with 100 chips each, dealer in seat 2, so
A posts the small blind (5) and B the big blind (10); C calls 10, A folds
(conceding the small blind), B checks.  All later streets check through
(no further chips move), and B and C reach showdown with identical
non-flush wheels, splitting a 25-chip pot. -/
def scenarioC1Start : EngineState :=
  { config := limitConfig,
    players := [mkPlayer "A" 100, mkPlayer "B" 100, mkPlayer "C" 100],
    pots := [], nextPotId := 0, phase := .WAITING, dealerButtonIndex := 2,
    currentPlayerIndex := 0, drawsRemaining := 3,
    playerHands := [], lastRaiser := none, bettingCapped := false,
    raisesInRound := 0 }

def scenarioC1Run : Option EngineState :=
  match scenarioC1Start.initializeHand
      [("A", junkHand), ("B", wheelHandA), ("C", wheelHandB)] with
  | .error _ => none
  | .ok s1 =>
    let s2 := s1.startBettingRound
    match s2.handleAction "C" ⟨.CALL, none⟩ with
    | .error _ => none
    | .ok s3 =>
      match s3.handleAction "A" ⟨.FOLD, none⟩ with
      | .error _ => none
      | .ok s4 =>
        match s4.handleAction "B" ⟨.CHECK, none⟩ with
        | .error _ => none
        | .ok s5 => (s5.endBettingRound).showdown

/-- Claim C1 (code bug): chip + pot conservation is violated by the
showdown payout.  In the C1 scenario the players start with 300 chips in
total; blind posting and the betting actions all preserve
chips + pots = 300, but the showdown pays each of the two tied winners
only `Math.floor(25 / 2) = 12` chips and never clears the pot ledger, so
after the showdown payout the players hold 299 chips while the ledger
still records 25 — the conserved sum 300 is irrecoverably lost (even
counting the ledger as paid out, one chip has vanished). -/
theorem chip_conservation_fails_at_showdown_payout :
    scenarioC1Start.chipSum = 300 ∧
    scenarioC1Run.map (fun s => (s.players.map fun p => (p.id, p.chips),
      s.chipSum, s.getTotalPot)) =
      some ([("A", 95), ("B", 102), ("C", 102)], 299, 25) ∧
    ¬ ((299 : Int) + 25 = 300) ∧ ¬ ((299 : Int) = 300) :=
  ⟨by rfl, by rfl, by decide, by decide⟩

/-- Scenario for C2: four players with 100 chips each.  D contributes 10
and folds on the second street; A, B and C each contribute 30, reaching
showdown with three identical non-flush wheels and a 100-chip pot. -/
def scenarioC2Start : EngineState :=
  { config := limitConfig,
    players := [mkPlayer "A" 100, mkPlayer "B" 100, mkPlayer "C" 100,
                mkPlayer "D" 100],
    pots := [], nextPotId := 0, phase := .WAITING, dealerButtonIndex := 0,
    currentPlayerIndex := 0, drawsRemaining := 3,
    playerHands := [], lastRaiser := none, bettingCapped := false,
    raisesInRound := 0 }

def scenarioC2Run : Option EngineState :=
  match scenarioC2Start.initializeHand
      [("A", wheelHandA), ("B", wheelHandB), ("C", wheelHandC), ("D", junkHand)] with
  | .error _ => none
  | .ok s1 =>
    match playRound [("D", ⟨.CALL, none⟩), ("A", ⟨.CALL, none⟩),
        ("B", ⟨.CALL, none⟩), ("C", ⟨.CHECK, none⟩)] s1 with
    | none => none
    | some s2 =>
      match playRound [("B", ⟨.BET, some 10⟩), ("C", ⟨.CALL, none⟩),
          ("D", ⟨.FOLD, none⟩), ("A", ⟨.CALL, none⟩)] s2 with
      | none => none
      | some s3 =>
        match playRound [("B", ⟨.BET, some 10⟩), ("C", ⟨.CALL, none⟩),
            ("A", ⟨.CALL, none⟩)] s3 with
        | none => none
        | some s4 =>
          match playRound [("B", ⟨.CHECK, none⟩), ("C", ⟨.CHECK, none⟩),
              ("A", ⟨.CHECK, none⟩)] s4 with
          | none => none
          | some s5 => s5.showdown

/-- The pot ledger standing at the C2 showdown: a single 100-chip pot with
A, B, C, D eligible (no all-in occurred, so no side pots). -/
def scenarioC2Ledger : PotManagerState :=
  { players := [mkPlayer "A" 70, mkPlayer "B" 70, mkPlayer "C" 70,
                { mkPlayer "D" 90 with state := .FOLDED }],
    pots := [{ id := 0, amount := 100, eligiblePlayers := ["A", "B", "C", "D"],
               contributions := [("A", 30), ("B", 30), ("C", 30), ("D", 10)],
               isActive := true, maxContributionPerPlayer := none }],
    nextPotId := 1 }

/-- Claim C2 (code bug): with three tied winners of a 100-chip pot the
engine's showdown pays 33 to each winner — `Math.floor(100 / 3)` from the
total pot, with no per-pot settlement and no remainder distribution — so
one chip is destroyed (total chips drop from 400 to 399), whereas the
pot ledger's own (never invoked) `calculatePayouts` on the same pot and
hands produces the specified {34, 33, 33} summing to exactly 100. -/
theorem showdown_pays_floor_share_and_drops_remainder :
    scenarioC2Run.map (fun s => (s.players.map fun p => (p.id, p.chips),
      s.chipSum, s.getTotalPot)) =
      some ([("A", 103), ("B", 103), ("C", 103), ("D", 90)], 399, 100) ∧
    scenarioC2Start.chipSum = 400 ∧
    scenarioC2Ledger.calculatePayouts
      [⟨"A", wheelHandA⟩, ⟨"B", wheelHandB⟩, ⟨"C", wheelHandC⟩] =
      some [("A", 34), ("B", 33), ("C", 33)] ∧
    (33 + 33 + 33 ≠ 100 ∧ 34 + 33 + 33 = 100) :=
  ⟨by rfl, by rfl, by rfl, by decide⟩

/-! ### Supporting lemmas: stable sort -/

deriving instance Fintype for Suit
deriving instance Fintype for Rank

theorem insertByCompare_perm {α : Type} (cmp : α → α → Int) (a : α) (l : List α) :
    (insertByCompare cmp a l).Perm (a :: l) := by
  induction l with
  | nil => simp [insertByCompare]
  | cons b bs ih =>
    simp only [insertByCompare]
    split
    · exact (ih.cons b).trans (List.Perm.swap a b bs)
    · exact List.Perm.refl _

theorem sortByCompare_perm {α : Type} (cmp : α → α → Int) (l : List α) :
    (sortByCompare cmp l).Perm l := by
  induction l with
  | nil => exact List.Perm.refl _
  | cons a as ih =>
    exact (insertByCompare_perm cmp a (sortByCompare cmp as)).trans (ih.cons a)

theorem mem_sortByCompare {α : Type} {cmp : α → α → Int} {l : List α} {x : α} :
    x ∈ sortByCompare cmp l ↔ x ∈ l :=
  (sortByCompare_perm cmp l).mem_iff

theorem length_sortByCompare {α : Type} (cmp : α → α → Int) (l : List α) :
    (sortByCompare cmp l).length = l.length :=
  (sortByCompare_perm cmp l).length_eq

/-! ### Supporting lemmas: hand evaluation -/

namespace LowballHandEvaluator

theorem compareValuesDown_self (v : List Int) (i : Nat) :
    compareValuesDown v v i = 0 := by
  induction i with
  | zero => simp [compareValuesDown]
  | succ i ih => simpa [compareValuesDown] using ih

theorem compareValuesDown_antisymm (v1 v2 : List Int) (i : Nat) :
    compareValuesDown v2 v1 i = -compareValuesDown v1 v2 i := by
  induction i with
  | zero =>
    unfold compareValuesDown
    split_ifs <;> omega
  | succ i ih =>
    unfold compareValuesDown
    split_ifs <;> first | omega | exact ih

theorem compareEvals_self (e : HandEvaluation) : compareEvals e e = 0 := by
  simp [compareEvals, compareValuesDown_self]

theorem compareEvals_antisymm (e1 e2 : HandEvaluation) :
    compareEvals e2 e1 = -compareEvals e1 e2 := by
  unfold compareEvals
  split_ifs <;> first | omega | exact compareValuesDown_antisymm e1.values e2.values 4

/-- Branch analysis of `evaluateHand` on a 5-card hand: some evaluation is
produced, its rank is at least 1, and rank 1 arises only in the wheel
branch (sorted values exactly 2,3,4,5,7 and no flush). -/
theorem evaluateHand_shape (cards : List Card) (h5 : cards.length = 5) :
    ∃ e, evaluateHand cards = some e ∧ 1 ≤ e.rank ∧
      (e.rank = 1 → sortedRankValues cards = [2, 3, 4, 5, 7] ∧ hasFlush cards = false) := by
  unfold evaluateHand
  rw [if_neg (by omega)]
  dsimp only
  by_cases h1 : 0 < (countRanks cards).quads
  · exact ⟨_, by rw [if_pos h1], (by decide : (1:Nat) ≤ 15),
      fun hr => absurd hr (by decide : ¬ ((15:Nat) = 1))⟩
  rw [if_neg h1]
  by_cases h2 : 0 < (countRanks cards).trips ∧ 0 < (countRanks cards).pairs
  · exact ⟨_, by rw [if_pos h2], (by decide : (1:Nat) ≤ 14),
      fun hr => absurd hr (by decide : ¬ ((14:Nat) = 1))⟩
  rw [if_neg h2]
  by_cases h3 : hasFlush cards = true ∧ hasStraight (sortedRankValues cards) = true
  · exact ⟨_, by rw [if_pos h3], (by decide : (1:Nat) ≤ 16),
      fun hr => absurd hr (by decide : ¬ ((16:Nat) = 1))⟩
  rw [if_neg h3]
  by_cases h4 : hasFlush cards = true
  · exact ⟨_, by rw [if_pos h4], (by decide : (1:Nat) ≤ 13),
      fun hr => absurd hr (by decide : ¬ ((13:Nat) = 1))⟩
  rw [if_neg h4]
  by_cases h5b : hasStraight (sortedRankValues cards) = true
  · exact ⟨_, by rw [if_pos h5b], (by decide : (1:Nat) ≤ 12),
      fun hr => absurd hr (by decide : ¬ ((12:Nat) = 1))⟩
  rw [if_neg h5b]
  by_cases h6 : 0 < (countRanks cards).trips
  · exact ⟨_, by rw [if_pos h6], (by decide : (1:Nat) ≤ 11),
      fun hr => absurd hr (by decide : ¬ ((11:Nat) = 1))⟩
  rw [if_neg h6]
  by_cases h7 : 2 ≤ (countRanks cards).pairs
  · exact ⟨_, by rw [if_pos h7], (by decide : (1:Nat) ≤ 10),
      fun hr => absurd hr (by decide : ¬ ((10:Nat) = 1))⟩
  rw [if_neg h7]
  by_cases h8 : (countRanks cards).pairs = 1
  · exact ⟨_, by rw [if_pos h8], (by decide : (1:Nat) ≤ 9),
      fun hr => absurd hr (by decide : ¬ ((9:Nat) = 1))⟩
  rw [if_neg h8]
  by_cases h9 : (sortedRankValues cards).getD 4 0 = 7 ∧ sortedRankValues cards = [2, 3, 4, 5, 7]
  · exact ⟨_, by rw [if_pos h9], (by decide : (1:Nat) ≤ 1),
      fun _ => ⟨h9.2, by simpa using h4⟩⟩
  rw [if_neg h9]
  by_cases h10 : (sortedRankValues cards).getD 4 0 = 8
  · exact ⟨_, by rw [if_pos h10], (by decide : (1:Nat) ≤ 2),
      fun hr => absurd hr (by decide : ¬ ((2:Nat) = 1))⟩
  rw [if_neg h10]
  by_cases h11 : (sortedRankValues cards).getD 4 0 = 9
  · exact ⟨_, by rw [if_pos h11], (by decide : (1:Nat) ≤ 3),
      fun hr => absurd hr (by decide : ¬ ((3:Nat) = 1))⟩
  rw [if_neg h11]
  by_cases h12 : (sortedRankValues cards).getD 4 0 = 10
  · exact ⟨_, by rw [if_pos h12], (by decide : (1:Nat) ≤ 4),
      fun hr => absurd hr (by decide : ¬ ((4:Nat) = 1))⟩
  rw [if_neg h12]
  by_cases h13 : (sortedRankValues cards).getD 4 0 = 11
  · exact ⟨_, by rw [if_pos h13], (by decide : (1:Nat) ≤ 5),
      fun hr => absurd hr (by decide : ¬ ((5:Nat) = 1))⟩
  rw [if_neg h13]
  by_cases h14 : (sortedRankValues cards).getD 4 0 = 12
  · exact ⟨_, by rw [if_pos h14], (by decide : (1:Nat) ≤ 6),
      fun hr => absurd hr (by decide : ¬ ((6:Nat) = 1))⟩
  rw [if_neg h14]
  by_cases h15 : (sortedRankValues cards).getD 4 0 = 13
  · exact ⟨_, by rw [if_pos h15], (by decide : (1:Nat) ≤ 7),
      fun hr => absurd hr (by decide : ¬ ((7:Nat) = 1))⟩
  rw [if_neg h15]
  exact ⟨_, rfl, (by decide : (1:Nat) ≤ 8), fun hr => absurd hr (by decide : ¬ ((8:Nat) = 1))⟩

theorem evaluateHand_length {cards : List Card} {e : HandEvaluation}
    (he : evaluateHand cards = some e) : cards.length = 5 := by
  by_cases h : cards.length = 5
  · exact h
  · rw [evaluateHand, if_pos (by omega)] at he
    cases he

theorem evaluateHand_isSome (cards : List Card) (h : cards.length = 5) :
    ∃ e, evaluateHand cards = some e := by
  obtain ⟨e, he, -, -⟩ := evaluateHand_shape cards h
  exact ⟨e, he⟩

theorem rank_pos {cards : List Card} {e : HandEvaluation}
    (he : evaluateHand cards = some e) : 1 ≤ e.rank := by
  obtain ⟨f, hf, h1, -⟩ := evaluateHand_shape cards (evaluateHand_length he)
  rw [he] at hf
  cases hf
  exact h1

theorem rank_one_is_wheel {cards : List Card} {e : HandEvaluation}
    (he : evaluateHand cards = some e) (h1 : e.rank = 1) :
    sortedRankValues cards = [2, 3, 4, 5, 7] ∧ hasFlush cards = false := by
  obtain ⟨f, hf, -, hw⟩ := evaluateHand_shape cards (evaluateHand_length he)
  rw [he] at hf
  cases hf
  exact hw h1


theorem RankValues_injective : Function.Injective RankValues := by
  intro a b h
  cases a <;> cases b <;> first
    | rfl
    | exact absurd h (by decide)

/-- On a 5-card hand whose sorted rank values are exactly 2,3,4,5,7 and with
no flush, `evaluateHand` takes the wheel branch: rank 1, type "wheel". -/
theorem wheel_rank_one (cards : List Card) (h5 : cards.length = 5)
    (hv : sortedRankValues cards = [2, 3, 4, 5, 7])
    (hf : hasFlush cards = false) :
    evaluateHand cards = some ⟨1, "wheel", [2, 3, 4, 5, 7], cards⟩ := by
  have hperm : ([2, 3, 4, 5, 7] : List Int).Perm
      (cards.map fun c => RankValues c.rank) := by
    have h := sortByCompare_perm (fun a b => a - b) (cards.map fun c => RankValues c.rank)
    rwa [show sortByCompare (fun a b => a - b) (cards.map fun c => RankValues c.rank) =
      sortedRankValues cards from rfl, hv] at h
  have hle : ∀ r : Rank, rankCount cards r ≤ 1 := by
    intro r
    have key : (cards.map fun c => RankValues c.rank).countP (· == RankValues r) =
        rankCount cards r := by
      rw [List.countP_map]
      apply List.countP_congr
      intro a _
      simp [Function.comp, beq_iff_eq, RankValues_injective.eq_iff]
    rw [← key, ← hperm.countP_eq]
    cases r <;> decide
  have hpairs : (countRanks cards).pairs = 0 := by
    simp only [countRanks]
    rw [List.length_eq_zero, List.filter_eq_nil]
    intro r _
    have := hle r
    simp only [beq_iff_eq]
    omega
  have htrips : (countRanks cards).trips = 0 := by
    simp only [countRanks]
    rw [List.length_eq_zero, List.filter_eq_nil]
    intro r _
    have := hle r
    simp only [beq_iff_eq]
    omega
  have hquads : (countRanks cards).quads = 0 := by
    simp only [countRanks]
    rw [List.length_eq_zero, List.filter_eq_nil]
    intro r _
    have := hle r
    simp only [beq_iff_eq]
    omega
  unfold evaluateHand
  rw [if_neg (by omega)]
  dsimp only
  rw [if_neg (show ¬ 0 < (countRanks cards).quads by omega)]
  rw [if_neg (show ¬ (0 < (countRanks cards).trips ∧ 0 < (countRanks cards).pairs) by
    rintro ⟨h, -⟩; omega)]
  rw [if_neg (show ¬ (hasFlush cards = true ∧
      hasStraight (sortedRankValues cards) = true) by
    rintro ⟨h, -⟩; rw [hf] at h; cases h)]
  rw [if_neg (show ¬ hasFlush cards = true by rw [hf]; simp)]
  rw [if_neg (show ¬ hasStraight (sortedRankValues cards) = true by rw [hv]; decide)]
  rw [if_neg (show ¬ 0 < (countRanks cards).trips by omega)]
  rw [if_neg (show ¬ 2 ≤ (countRanks cards).pairs by omega)]
  rw [if_neg (show ¬ (countRanks cards).pairs = 1 by omega)]
  rw [if_pos (show (sortedRankValues cards).getD 4 0 = 7 ∧
      sortedRankValues cards = [2, 3, 4, 5, 7] from ⟨by rw [hv]; decide, hv⟩)]
  rw [hv]
  rfl

end LowballHandEvaluator

/-! ### Claims about the hand evaluator -/

/-- The hand 7-5-4-3-2 with the given suits. -/
def wheelWith (s1 s2 s3 s4 s5 : Suit) : List Card :=
  [⟨.seven, s1⟩, ⟨.five, s2⟩, ⟨.four, s3⟩, ⟨.three, s4⟩, ⟨.two, s5⟩]

/-- A non-flush 7-5-4-3-2: the only hands `evaluateHand` ranks 1. -/
def isNonFlushWheel (h : List Card) : Prop :=
  LowballHandEvaluator.sortedRankValues h = [2, 3, 4, 5, 7] ∧
    LowballHandEvaluator.hasFlush h = false

instance (h : List Card) : Decidable (isNonFlushWheel h) := by
  unfold isNonFlushWheel
  infer_instance

theorem wheelWith_values (s1 s2 s3 s4 s5 : Suit) :
    LowballHandEvaluator.sortedRankValues (wheelWith s1 s2 s3 s4 s5) =
      [2, 3, 4, 5, 7] := rfl

theorem wheelWith_not_flush (s1 s2 s3 s4 s5 : Suit)
    (hsuits : ¬ (s1 = s2 ∧ s2 = s3 ∧ s3 = s4 ∧ s4 = s5)) :
    LowballHandEvaluator.hasFlush (wheelWith s1 s2 s3 s4 s5) = false := by
  revert hsuits
  revert s1 s2 s3 s4 s5
  decide

open LowballHandEvaluator in
/-- Claim C6: wheel supremacy.  A 7-5-4-3-2 hand in non-identical suits
evaluates to rank 1, and `compare` ranks it strictly better (result -1)
than every 5-card hand that is not itself a non-flush 7-5-4-3-2. -/
theorem wheel_supremacy (s1 s2 s3 s4 s5 : Suit)
    (hsuits : ¬ (s1 = s2 ∧ s2 = s3 ∧ s3 = s4 ∧ s4 = s5))
    (h : List Card) (hlen : h.length = 5) (hnw : ¬ isNonFlushWheel h) :
    evaluateHand (wheelWith s1 s2 s3 s4 s5) =
      some ⟨1, "wheel", [2, 3, 4, 5, 7], wheelWith s1 s2 s3 s4 s5⟩ ∧
    LowballHandEvaluator.compare (wheelWith s1 s2 s3 s4 s5) h = some (-1) := by
  have hw := wheel_rank_one (wheelWith s1 s2 s3 s4 s5) rfl
    (wheelWith_values s1 s2 s3 s4 s5) (wheelWith_not_flush s1 s2 s3 s4 s5 hsuits)
  obtain ⟨e, he⟩ := evaluateHand_isSome h hlen
  have h1 : 1 ≤ e.rank := rank_pos he
  have hne : e.rank ≠ 1 := by
    intro hr
    exact hnw (rank_one_is_wheel he hr)
  refine ⟨hw, ?_⟩
  unfold LowballHandEvaluator.compare
  rw [hw, he]
  unfold compareEvals
  dsimp only
  rw [if_pos (show (1 : Nat) ≠ e.rank by omega)]
  rw [if_pos (show (1 : Nat) < e.rank by omega)]

/-- Closed witness for C6: the wheel (in mixed suits) beats 8-6-4-3-2. -/
theorem wheel_supremacy_witness :
    ¬ ((Suit.hearts = Suit.diamonds) ∧ (Suit.diamonds = Suit.clubs) ∧
        (Suit.clubs = Suit.spades) ∧ (Suit.spades = Suit.hearts)) ∧
    ([⟨.eight, .hearts⟩, ⟨.six, .diamonds⟩, ⟨.four, .clubs⟩, ⟨.three, .spades⟩,
      ⟨.two, .hearts⟩] : List Card).length = 5 ∧
    ¬ isNonFlushWheel [⟨.eight, .hearts⟩, ⟨.six, .diamonds⟩, ⟨.four, .clubs⟩,
      ⟨.three, .spades⟩, ⟨.two, .hearts⟩] ∧
    LowballHandEvaluator.compare
      (wheelWith .hearts .diamonds .clubs .spades .hearts)
      [⟨.eight, .hearts⟩, ⟨.six, .diamonds⟩, ⟨.four, .clubs⟩, ⟨.three, .spades⟩,
        ⟨.two, .hearts⟩] = some (-1) :=
  ⟨by decide, by decide, by decide,
    (wheel_supremacy .hearts .diamonds .clubs .spades .hearts (by decide)
      [⟨.eight, .hearts⟩, ⟨.six, .diamonds⟩, ⟨.four, .clubs⟩, ⟨.three, .spades⟩,
        ⟨.two, .hearts⟩] (by decide) (by decide)).2⟩

/-- The hand A-5-4-3-2 with the given suits. -/
def aceToFiveWith (s1 s2 s3 s4 s5 : Suit) : List Card :=
  [⟨.ace, s1⟩, ⟨.five, s2⟩, ⟨.four, s3⟩, ⟨.three, s4⟩, ⟨.two, s5⟩]

open LowballHandEvaluator in
/-- Claim C7: ace-low-straight classification.  For any suits with no
flush, A-5-4-3-2 (values {14,2,3,4,5}) evaluates as a straight with rank
12 — never one of the no-pair low ranks 1 through 8
(`LowballRank.WHEEL` .. `LowballRank.ACE_LOW`). -/
theorem ace_low_straight_classification (s1 s2 s3 s4 s5 : Suit)
    (hf : hasFlush (aceToFiveWith s1 s2 s3 s4 s5) = false) :
    evaluateHand (aceToFiveWith s1 s2 s3 s4 s5) =
      some ⟨LowballRank.STRAIGHT, "straight", [2, 3, 4, 5, 14],
        aceToFiveWith s1 s2 s3 s4 s5⟩ ∧
    LowballRank.STRAIGHT = 12 ∧
    ¬ (LowballRank.STRAIGHT ≤ LowballRank.ACE_LOW) := by
  refine ⟨?_, by decide, by decide⟩
  exact (by decide :
    ∀ t1 t2 t3 t4 t5 : Suit, hasFlush (aceToFiveWith t1 t2 t3 t4 t5) = false →
      evaluateHand (aceToFiveWith t1 t2 t3 t4 t5) =
        some ⟨LowballRank.STRAIGHT, "straight", [2, 3, 4, 5, 14],
          aceToFiveWith t1 t2 t3 t4 t5⟩) s1 s2 s3 s4 s5 hf

/-- Closed witness for C7 at concrete mixed suits. -/
theorem ace_low_straight_classification_witness :
    LowballHandEvaluator.hasFlush
      (aceToFiveWith .hearts .diamonds .clubs .spades .hearts) = false ∧
    LowballHandEvaluator.evaluateHand
      (aceToFiveWith .hearts .diamonds .clubs .spades .hearts) =
      some ⟨LowballRank.STRAIGHT, "straight", [2, 3, 4, 5, 14],
        aceToFiveWith .hearts .diamonds .clubs .spades .hearts⟩ :=
  ⟨by decide,
    (ace_low_straight_classification .hearts .diamonds .clubs .spades .hearts
      (by decide)).1⟩

open LowballHandEvaluator in
/-- Claim C10: `compare` is antisymmetric on 5-card hands —
`compare a b = -compare b a` — and in particular `compare a a = 0`. -/
theorem compare_antisymmetric (a b : List Card)
    (ha : a.length = 5) (hb : b.length = 5) :
    (∃ c, LowballHandEvaluator.compare a b = some c ∧
      LowballHandEvaluator.compare b a = some (-c)) ∧
    LowballHandEvaluator.compare a a = some 0 := by
  obtain ⟨ea, hea⟩ := evaluateHand_isSome a ha
  obtain ⟨eb, heb⟩ := evaluateHand_isSome b hb
  constructor
  · refine ⟨compareEvals ea eb, ?_, ?_⟩
    · unfold LowballHandEvaluator.compare
      rw [hea, heb]
    · unfold LowballHandEvaluator.compare
      rw [hea, heb]
      show some (compareEvals eb ea) = some (-compareEvals ea eb)
      rw [compareEvals_antisymm ea eb]
  · unfold LowballHandEvaluator.compare
    rw [hea]
    show some (compareEvals ea ea) = some 0
    rw [compareEvals_self]

/-- Closed witness for C10 at concrete hands. -/
theorem compare_antisymmetric_witness :
    (wheelHandA.length = 5 ∧ junkHand.length = 5) ∧
    ((∃ c, LowballHandEvaluator.compare wheelHandA junkHand = some c ∧
      LowballHandEvaluator.compare junkHand wheelHandA = some (-c)) ∧
    LowballHandEvaluator.compare wheelHandA wheelHandA = some 0) :=
  ⟨⟨by decide, by decide⟩,
    compare_antisymmetric wheelHandA junkHand (by decide) (by decide)⟩

/-! ### Claims about the pot ledger -/

/-- Claim C9: a contribution from a player outside a pot's eligible set
returns 0 and is a no-op on the pot, for any amount. -/
theorem addContribution_ineligible_frame (pot : Pot) (pid : String) (amount : Int)
    (h : ¬ pot.eligiblePlayers.contains pid) :
    pot.addContribution pid amount = (pot, 0) := by
  unfold Pot.addContribution
  rw [if_pos h]

/-- Closed witness for C9: an empty-eligibility pot ignores a 50-chip
contribution from player A. -/
theorem addContribution_ineligible_frame_witness :
    ¬ (Pot.mk 0 10 ["B"] [("B", 10)] true none).eligiblePlayers.contains "A" ∧
    (Pot.mk 0 10 ["B"] [("B", 10)] true none).addContribution "A" 50 =
      (Pot.mk 0 10 ["B"] [("B", 10)] true none, 0) :=
  ⟨by decide, addContribution_ineligible_frame _ "A" 50 (by decide)⟩

theorem canAcceptFrom_isActive {pot : Pot} {pid : String}
    (h : pot.canAcceptFrom pid = true) : pot.isActive = true := by
  unfold Pot.canAcceptFrom at h
  by_cases ha : pot.isActive = true
  · exact ha
  · rw [if_pos (by simpa using ha)] at h
    cases h

/-- Claim C5: `handleAllIn` caps the currently active pot at the all-in
player's total round contribution (recording the cap, closing the pot) and
appends a new side pot whose eligible set is every other still-active
player eligible for the capped pot, exactly when at least 2 such players
remain or exactly 1 remains in a two-player game. -/
theorem handleAllIn_caps_and_creates_side_pot
    (pm : PotManagerState) (pid : String) (totalAmount : Int) (activePot : Pot)
    (hap : pm.getActivePot = some activePot)
    (hacc : activePot.canAcceptFrom pid = true)
    (hgt : (activePot.getPlayerContribution pid : Int) < totalAmount) :
    let stillActive := activePot.eligiblePlayers.filter fun q =>
      q != pid && pm.stateOf q == some PlayerState.ACTIVE
    (pm.handleAllIn pid totalAmount).pots =
      (pm.pots.map fun p => if p.id = activePot.id then activePot.cap totalAmount else p) ++
        (if 2 ≤ stillActive.length ∨ (stillActive.length = 1 ∧ pm.players.length = 2) then
          [{ id := pm.nextPotId, amount := 0, eligiblePlayers := stillActive,
             contributions := [], isActive := true, maxContributionPerPlayer := none }]
        else []) ∧
    (activePot.cap totalAmount).maxContributionPerPlayer =
      some (ensureInteger totalAmount).toNat ∧
    (activePot.cap totalAmount).isActive = false := by
  intro stillActive
  refine ⟨?_, rfl, rfl⟩
  unfold PotManagerState.handleAllIn
  rw [hap]
  dsimp only
  rw [if_neg (by simp [hacc])]
  rw [if_pos ⟨canAcceptFrom_isActive hacc, hgt⟩]
  split_ifs with hcreate
  · simp [PotManagerState.createPot]
  · simp

/-- Closed witness for C5 matching the specification's example: A goes
all-in for a round total of 200 while B and C are still active; the main
pot is capped at 200 and a side pot eligible only to B and C is created. -/
theorem handleAllIn_witness :
    (let pmW : PotManagerState :=
      { players := [mkPlayer "A" 0, mkPlayer "B" 800, mkPlayer "C" 800],
        pots := [{ id := 0, amount := 250, eligiblePlayers := ["A", "B", "C"],
                   contributions := [("A", 50), ("B", 100), ("C", 100)],
                   isActive := true, maxContributionPerPlayer := none }],
        nextPotId := 1 }
    let mainPot : Pot :=
      { id := 0, amount := 250, eligiblePlayers := ["A", "B", "C"],
        contributions := [("A", 50), ("B", 100), ("C", 100)],
        isActive := true, maxContributionPerPlayer := none }
    pmW.getActivePot = some mainPot ∧
    mainPot.canAcceptFrom "A" = true ∧
    ((mainPot.getPlayerContribution "A" : Int) < 200) ∧
    ((pmW.handleAllIn "A" 200).pots =
      [{ id := 0, amount := 250, eligiblePlayers := ["A", "B", "C"],
         contributions := [("A", 50), ("B", 100), ("C", 100)],
         isActive := false, maxContributionPerPlayer := some 200 },
       { id := 1, amount := 0, eligiblePlayers := ["B", "C"],
         contributions := [], isActive := true, maxContributionPerPlayer := none }])) := by
  refine ⟨by decide, by decide, by decide, ?_⟩
  have h := handleAllIn_caps_and_creates_side_pot
    { players := [mkPlayer "A" 0, mkPlayer "B" 800, mkPlayer "C" 800],
      pots := [{ id := 0, amount := 250, eligiblePlayers := ["A", "B", "C"],
                 contributions := [("A", 50), ("B", 100), ("C", 100)],
                 isActive := true, maxContributionPerPlayer := none }],
      nextPotId := 1 }
    "A" 200
    { id := 0, amount := 250, eligiblePlayers := ["A", "B", "C"],
      contributions := [("A", 50), ("B", 100), ("C", 100)],
      isActive := true, maxContributionPerPlayer := none }
    (by decide) (by decide) (by decide)
  rw [h.1]
  decide

/-! ### Claim C4: per-pot payout exactness -/

open LowballHandEvaluator

theorem evaluateAll_isSome (hs : List HandInfo)
    (h5 : ∀ h ∈ hs, h.cards.length = 5) :
    ∃ l, evaluateAll hs = some l := by
  induction hs with
  | nil => exact ⟨[], rfl⟩
  | cons h rest ih =>
    obtain ⟨e, he⟩ := evaluateHand_isSome h.cards (h5 h (by simp))
    obtain ⟨l, hl⟩ := ih fun x hx => h5 x (by simp [hx])
    exact ⟨e :: l, by simp [evaluateAll, he, hl]⟩

theorem takeWhile_subset {α : Type} (p : α → Bool) (l : List α) :
    ∀ x ∈ l.takeWhile p, x ∈ l := by
  induction l with
  | nil => simp
  | cons a as ih =>
    intro x hx
    by_cases hp : p a
    · rw [List.takeWhile_cons_of_pos hp] at hx
      rcases hx with _ | hx
      · simp
      · simp only [List.mem_cons]
        right
        exact ih x (by assumption)
    · rw [List.takeWhile_cons_of_neg hp] at hx
      cases hx

/-- `findWinners` on a non-empty list of 5-card hands succeeds, returns a
non-empty winner list, and every winner is one of the supplied hands. -/
theorem findWinners_spec (hands : List HandInfo) (hne : hands ≠ [])
    (h5 : ∀ h ∈ hands, h.cards.length = 5) :
    ∃ ws, findWinners hands = some ws ∧ ws ≠ [] ∧ ∀ w ∈ ws, w ∈ hands := by
  obtain ⟨l, hl⟩ := evaluateAll_isSome hands h5
  unfold findWinners
  rw [if_neg (by simpa using hne), hl]
  dsimp only
  rcases hspl : sortByCompare
      (fun a b => (LowballHandEvaluator.compare a.cards b.cards).getD 0) hands with
    _ | ⟨best, rest⟩
  · have hlen := length_sortByCompare
      (fun a b => (LowballHandEvaluator.compare a.cards b.cards).getD 0) hands
    rw [hspl] at hlen
    exact absurd (List.length_eq_zero.mp hlen.symm) hne
  · have hbm : best ∈ hands := by
      rw [← @mem_sortByCompare HandInfo (fun a b =>
        (LowballHandEvaluator.compare a.cards b.cards).getD 0) hands best, hspl]
      exact List.mem_cons_self _ _
    obtain ⟨eb, heb⟩ := evaluateHand_isSome best.cards (h5 best hbm)
    have hself : ((LowballHandEvaluator.compare best.cards best.cards).getD 1 == 0) = true := by
      unfold LowballHandEvaluator.compare
      rw [heb]
      show ((some (compareEvals eb eb)).getD 1 == 0) = true
      rw [compareEvals_self]
      rfl
    rw [hspl]
    refine ⟨_, rfl, ?_, ?_⟩
    · rw [List.takeWhile_cons, if_pos hself]
      simp
    · intro w hw
      have hw2 : w ∈ best :: rest := takeWhile_subset _ _ w hw
      rw [← hspl] at hw2
      exact mem_sortByCompare.mp hw2

theorem distributeShares_sum (share : Nat) (ws : List HandInfo) (r : Nat) :
    ((distributeShares share ws r).map (·.2)).sum =
      ws.length * share + min r ws.length := by
  induction ws generalizing r with
  | nil => simp [distributeShares]
  | cons w rest ih =>
    by_cases hr : 0 < r
    · rw [distributeShares, if_pos hr]
      have := ih (r - 1)
      simp only [List.map_cons, List.sum_cons, this, List.length_cons]
      rw [Nat.succ_mul]
      omega
    · rw [distributeShares, if_neg hr]
      have := ih r
      simp only [List.map_cons, List.sum_cons, this, List.length_cons]
      rw [Nat.succ_mul]
      omega

theorem distributeShares_mem (share : Nat) (ws : List HandInfo) (r : Nat) :
    ∀ pr ∈ distributeShares share ws r, pr.1 ∈ ws.map (·.playerId) := by
  induction ws generalizing r with
  | nil => simp [distributeShares]
  | cons w rest ih =>
    intro pr hpr
    by_cases hr : 0 < r
    · rw [distributeShares, if_pos hr] at hpr
      rcases hpr with _ | hpr
      · simp
      · simp only [List.map_cons, List.mem_cons]
        right
        exact ih (r - 1) pr (by assumption)
    · rw [distributeShares, if_neg hr] at hpr
      rcases hpr with _ | hpr
      · simp
      · simp only [List.map_cons, List.mem_cons]
        right
        exact ih r pr (by assumption)

/-- The candidate set of a pot inside `calculatePayouts`: the supplied hands
restricted to the pot's eligible players, or all supplied hands when no
eligible player remains. -/
def potCandidates (pot : Pot) (allPlayerHands : List HandInfo) : List HandInfo :=
  if (allPlayerHands.filter fun ph =>
      pot.eligiblePlayers.contains ph.playerId).isEmpty then allPlayerHands
  else allPlayerHands.filter fun ph => pot.eligiblePlayers.contains ph.playerId

/-- Per-pot payout exactness: on non-empty 5-card hands, the per-pot body of
`calculatePayouts` succeeds, pays only candidate players (eligible-or-
fallback) and pays out exactly the pot's amount. -/
theorem potPayouts_spec (pot : Pot) (hands : List HandInfo) (hne : hands ≠ [])
    (h5 : ∀ h ∈ hands, h.cards.length = 5) :
    ∃ pays, potPayouts pot hands = some pays ∧
      ((pays.map (·.2)).sum = pot.amount ∧
       ∀ pr ∈ pays, pr.1 ∈ (potCandidates pot hands).map (·.playerId)) := by
  have hcne : potCandidates pot hands ≠ [] := by
    unfold potCandidates
    split_ifs with he
    · exact hne
    · simpa using he
  have hc5 : ∀ h ∈ potCandidates pot hands, h.cards.length = 5 := by
    intro h hh
    apply h5
    unfold potCandidates at hh
    split_ifs at hh with he
    · exact hh
    · exact List.mem_of_mem_filter hh
  obtain ⟨ws, hws, hwne, hwmem⟩ := findWinners_spec (potCandidates pot hands) hcne hc5
  have hn : 0 < ws.length := List.length_pos.mpr hwne
  have heq : potPayouts pot hands =
      some (distributeShares (pot.amount / ws.length) ws (pot.amount % ws.length)) := by
    unfold potPayouts
    dsimp only
    rw [show (if (hands.filter fun ph =>
        pot.eligiblePlayers.contains ph.playerId).isEmpty then hands
        else hands.filter fun ph => pot.eligiblePlayers.contains ph.playerId) =
        potCandidates pot hands from rfl, hws]
    dsimp only
    rw [if_pos hn]
  refine ⟨_, heq, ?_, ?_⟩
  · rw [distributeShares_sum]
    have hmod : pot.amount % ws.length < ws.length := Nat.mod_lt _ hn
    have : min (pot.amount % ws.length) ws.length = pot.amount % ws.length := by omega
    rw [this]
    exact Nat.div_add_mod _ _
  · intro pr hpr
    have h1 := distributeShares_mem (pot.amount / ws.length) ws
      (pot.amount % ws.length) pr hpr
    simp only [List.mem_map] at h1 ⊢
    obtain ⟨w, hw, hwid⟩ := h1
    exact ⟨w, hwmem w hw, hwid⟩

theorem mergePayouts_update_keys (acc : List (String × Nat)) (pid : String) (amt : Nat) :
    ((acc.map fun e => if e.1 == pid then (pid, e.2 + amt) else e).map (·.1)) =
      acc.map (·.1) := by
  induction acc with
  | nil => rfl
  | cons e rest ih =>
    by_cases h : e.1 == pid
    · simp only [List.map_cons, if_pos h, ih]
      rw [eq_of_beq h]
    · simp only [List.map_cons, if_neg h, ih]

theorem mergePayouts_update_sum (acc : List (String × Nat)) (pid : String) (amt : Nat)
    (hnd : (acc.map (·.1)).Nodup) (hmem : acc.any (fun e => e.1 == pid) = true) :
    ((acc.map fun e => if e.1 == pid then (pid, e.2 + amt) else e).map (·.2)).sum =
      (acc.map (·.2)).sum + amt := by
  induction acc with
  | nil => cases hmem
  | cons e rest ih =>
    simp only [List.map_cons, List.nodup_cons] at hnd
    by_cases h : e.1 == pid
    · have hrest : rest.map (fun e => if e.1 == pid then (pid, e.2 + amt) else e) = rest := by
        have hptw : ∀ x ∈ rest, (if x.1 == pid then (pid, x.2 + amt) else x) = id x := by
          intro x hx
          rw [if_neg]
          · rfl
          · intro hx2
            exact hnd.1 (by
              rw [eq_of_beq h, ← eq_of_beq hx2]
              exact List.mem_map_of_mem (·.1) hx)
        rw [List.map_congr_left hptw, List.map_id]
      simp only [List.map_cons, if_pos h, hrest, List.sum_cons]
      omega
    · have hmem' : rest.any (fun e => e.1 == pid) = true := by
        simp only [List.any_cons, h, Bool.false_or] at hmem
        exact hmem
      simp only [List.map_cons, if_neg h, List.sum_cons, ih hnd.2 hmem']
      omega

theorem mergePayouts_spec (l : List (String × Nat)) :
    ∀ acc : List (String × Nat), (acc.map (·.1)).Nodup →
    ((mergePayouts acc l).map (·.2)).sum = (acc.map (·.2)).sum + (l.map (·.2)).sum ∧
    ((mergePayouts acc l).map (·.1)).Nodup := by
  induction l with
  | nil => intro acc hnd; simp [mergePayouts, hnd]
  | cons ea rest ih =>
    intro acc hnd
    rcases ea with ⟨pid, amt⟩
    unfold mergePayouts
    dsimp only
    by_cases hmem : acc.any (fun e => e.1 == pid) = true
    · rw [if_pos hmem]
      have hnd' : ((acc.map fun e => if e.1 == pid then (pid, e.2 + amt) else e).map
          (·.1)).Nodup := by
        rw [mergePayouts_update_keys]
        exact hnd
      obtain ⟨hsum, hnodup⟩ := ih _ hnd'
      refine ⟨?_, hnodup⟩
      rw [hsum, mergePayouts_update_sum acc pid amt hnd hmem]
      simp only [List.map_cons, List.sum_cons]
      omega
    · rw [if_neg hmem]
      have hnotin : pid ∉ acc.map (·.1) := by
        intro hin
        obtain ⟨e, he, heq⟩ := List.mem_map.mp hin
        rw [List.any_eq_true] at hmem
        exact hmem ⟨e, he, by simp [heq]⟩
      have hnd' : (((acc ++ [(pid, amt)]).map (·.1))).Nodup := by
        simp only [List.map_append, List.map_cons, List.map_nil]
        rw [List.nodup_append]
        refine ⟨hnd, List.nodup_singleton _, ?_⟩
        intro x hx hx2
        have hxp : x = pid := by simpa using hx2
        exact hnotin (hxp ▸ hx)
      obtain ⟨hsum, hnodup⟩ := ih _ hnd'
      refine ⟨?_, hnodup⟩
      rw [hsum]
      simp only [List.map_append, List.map_cons, List.map_nil, List.sum_append,
        List.sum_cons, List.sum_nil]
      omega

theorem calculatePayouts_foldl (hands : List LowballHandEvaluator.HandInfo)
    (hne : hands ≠ []) (h5 : ∀ h ∈ hands, h.cards.length = 5) :
    ∀ (pots : List Pot) (acc : List (String × Nat)), (acc.map (·.1)).Nodup →
    ∃ res, pots.foldlM (fun acc pot => (potPayouts pot hands).map (mergePayouts acc)) acc =
        some res ∧
      (res.map (·.2)).sum = (acc.map (·.2)).sum + (pots.map (·.amount)).sum ∧
      (res.map (·.1)).Nodup := by
  intro pots
  induction pots with
  | nil => intro acc hnd; exact ⟨acc, rfl, by simp, hnd⟩
  | cons pot rest ih =>
    intro acc hnd
    obtain ⟨pays, hpays, hsum, -⟩ := potPayouts_spec pot hands hne h5
    obtain ⟨hmsum, hmnd⟩ := mergePayouts_spec pays acc hnd
    obtain ⟨res, hres, hressum, hresnd⟩ := ih (mergePayouts acc pays) hmnd
    refine ⟨res, ?_, ?_, hresnd⟩
    · rw [List.foldlM_cons, hpays]
      exact hres
    · rw [hressum, hmsum, hsum]
      simp only [List.map_cons, List.sum_cons]
      omega

open LowballHandEvaluator in
/-- Claim C4: `calculatePayouts` treats each pot independently — candidates
are the hands of the pot's eligible players, falling back to all supplied
hands when no originally-eligible player remains — and the amounts paid out
of each pot (integer share plus one-chip remainders handed to winners in
evaluation order) sum exactly to that pot's amount; consequently the merged
payout map sums to the whole ledger. -/
theorem calculatePayouts_per_pot_exact (pm : PotManagerState)
    (hands : List HandInfo) (hne : hands ≠ [])
    (h5 : ∀ h ∈ hands, h.cards.length = 5) :
    (∀ pot ∈ pm.pots, ∃ pays, potPayouts pot hands = some pays ∧
      (pays.map (·.2)).sum = pot.amount ∧
      ∀ pr ∈ pays, pr.1 ∈ (potCandidates pot hands).map (·.playerId)) ∧
    ∃ total, pm.calculatePayouts hands = some total ∧
      (total.map (·.2)).sum = pm.getTotalPot := by
  constructor
  · intro pot _
    exact potPayouts_spec pot hands hne h5
  · obtain ⟨res, hres, hsum, -⟩ :=
      calculatePayouts_foldl hands hne h5 pm.pots [] (by simp)
    exact ⟨res, hres, by simpa [PotManagerState.getTotalPot] using hsum⟩

open LowballHandEvaluator in
/-- Closed witness for C4: a two-pot ledger (main pot 100 with A, B, C
eligible; side pot 51 with only B, C eligible) paid to three tying wheels:
the main pot pays {34, 33, 33}, the side pot {26, 25} to B and C only. -/
theorem calculatePayouts_per_pot_exact_witness :
    (let pmW : PotManagerState :=
      { players := [mkPlayer "A" 0, mkPlayer "B" 0, mkPlayer "C" 0],
        pots := [{ id := 0, amount := 100, eligiblePlayers := ["A", "B", "C"],
                   contributions := [], isActive := false,
                   maxContributionPerPlayer := some 40 },
                 { id := 1, amount := 51, eligiblePlayers := ["B", "C"],
                   contributions := [], isActive := true,
                   maxContributionPerPlayer := none }],
        nextPotId := 2 }
    let handsW : List HandInfo :=
      [⟨"A", wheelHandA⟩, ⟨"B", wheelHandB⟩, ⟨"C", wheelHandC⟩]
    handsW ≠ [] ∧ (∀ h ∈ handsW, h.cards.length = 5) ∧
    ((∀ pot ∈ pmW.pots, ∃ pays, potPayouts pot handsW = some pays ∧
       (pays.map (·.2)).sum = pot.amount ∧
       ∀ pr ∈ pays, pr.1 ∈ (potCandidates pot handsW).map (·.playerId)) ∧
     ∃ total, pmW.calculatePayouts handsW = some total ∧
       (total.map (·.2)).sum = pmW.getTotalPot) ∧
    pmW.calculatePayouts handsW = some [("A", 34), ("B", 59), ("C", 58)]) := by
  refine ⟨by decide, by decide, ?_, by rfl⟩
  exact calculatePayouts_per_pot_exact _ _ (by decide) (by decide)

/-! ### Claim C3: the limit-betting cap -/

/-- Limit-mode round with A, B (1000 chips) and the short stack E (5 chips),
bets fresh, no raises yet. -/
def scenarioC3Start : EngineState :=
  { config := limitConfig,
    players := [mkPlayer "A" 1000, mkPlayer "B" 1000, mkPlayer "E" 5],
    pots := [{ id := 0, amount := 0, eligiblePlayers := ["A", "B", "E"],
               contributions := [], isActive := true, maxContributionPerPlayer := none }],
    nextPotId := 1, phase := .PRE_DRAW, dealerButtonIndex := 0,
    currentPlayerIndex := 0, drawsRemaining := 3, playerHands := [],
    lastRaiser := none, bettingCapped := false, raisesInRound := 0 }

/-- One opening BET and three RAISEs (four aggressive actions, three of
them raises). -/
def scenarioC3Acts : List (String × ActionData) :=
  [("A", ⟨.BET, some 10⟩), ("B", ⟨.RAISE, some 10⟩),
   ("A", ⟨.RAISE, some 10⟩), ("B", ⟨.RAISE, some 10⟩)]

def scenarioC3Run : Option EngineState :=
  roundSeq scenarioC3Start scenarioC3Acts

/-- Claim C3 counterexample: after an opening BET and only three RAISEs the
round is already capped (`raisesInRound` counts the opening bet, so the cap
is not "only after 4 raises"), the next RAISE — only the fourth raise — is
rejected, and a capped facing player who cannot afford the call gets
valid-action set {FOLD}, not {FOLD, CALL}. -/
theorem betting_cap_counterexample :
    (scenarioC3Acts.countP fun pa => pa.2.action == GameAction.RAISE) = 3 ∧
    (scenarioC3Acts.countP fun pa => pa.2.action == GameAction.BET) = 1 ∧
    scenarioC3Run.map (fun s => (s.raisesInRound, s.bettingCapped)) = some (4, true) ∧
    scenarioC3Run.map (fun s => s.handleAction "A" ⟨.RAISE, some 10⟩) =
      some (Except.error "Betting is capped in this round") ∧
    scenarioC3Run.map (fun s => s.getValidActions (s.getPlayer "E")) =
      some [GameAction.FOLD] :=
  ⟨by decide, by decide, by rfl, by rfl, by rfl⟩

theorem updatePlayer_raisesInRound (st : EngineState) (pid : String)
    (f : PlayerRec → PlayerRec) :
    (st.updatePlayer pid f).raisesInRound = st.raisesInRound := rfl

theorem updatePlayer_bettingCapped (st : EngineState) (pid : String)
    (f : PlayerRec → PlayerRec) :
    (st.updatePlayer pid f).bettingCapped = st.bettingCapped := rfl

theorem addToPot_raisesInRound (st : EngineState) (pid : String) (n : Int) :
    (st.addToPot pid n).raisesInRound = st.raisesInRound := by
  unfold EngineState.addToPot
  rcases h : PotManagerState.addToPotLoop pid st.pots (ensureInteger n) with ⟨pots', rem⟩
  simp [h]

theorem addToPot_bettingCapped (st : EngineState) (pid : String) (n : Int) :
    (st.addToPot pid n).bettingCapped = st.bettingCapped := by
  unfold EngineState.addToPot
  rcases h : PotManagerState.addToPotLoop pid st.pots (ensureInteger n) with ⟨pots', rem⟩
  simp [h]

open GameAction in
/-- Claim C3 (amended): in limit-betting mode, `raisesInRound` counts bets
and raises alike, so the round is capped after 4 aggressive actions in
total (an opening bet plus three raises suffices).  Once 4 aggressive
actions have occurred every further BET/RAISE is rejected with
"Betting is capped in this round"; before that, a BET/RAISE whose amount
differs from `betLimit` is rejected with "Raise must be exactly ..."; a
successful BET/RAISE increments the count and sets the capped flag exactly
when the new count reaches 4; and once capped the valid-action set of a
facing player is {FOLD, CALL} if they can afford the call, {FOLD} if not,
and {CHECK} when nothing is owed — RAISE (and BET) never appear. -/
theorem limit_betting_cap_amended (st : EngineState) (pid : String)
    (a : ActionData) (p : PlayerRec)
    (hlim : st.config.limitBetting = true) :
    ((a.action = BET ∨ a.action = RAISE) → 4 ≤ st.raisesInRound →
      st.handleAction pid a = .error "Betting is capped in this round") ∧
    ((a.action = BET ∨ a.action = RAISE) → st.raisesInRound < 4 →
      ensureIntegerOpt a.amount ≠ st.config.betLimit →
      st.handleAction pid a =
        .error ("Raise must be exactly " ++ toString st.config.betLimit)) ∧
    ((a.action = BET ∨ a.action = RAISE) → ∀ st',
      st.handleAction pid a = .ok st' →
      st'.raisesInRound = st.raisesInRound + 1 ∧
      (st'.bettingCapped = true ↔
        (st.bettingCapped = true ∨ 4 ≤ st.raisesInRound + 1))) ∧
    ((st.bettingCapped = true ∨ 4 ≤ st.raisesInRound) →
      (st.getCurrentBet - p.bet = 0 → st.getValidActions p = [CHECK]) ∧
      (0 < st.getCurrentBet - p.bet → st.getCurrentBet - p.bet ≤ p.chips →
        st.getValidActions p = [FOLD, CALL]) ∧
      (0 < st.getCurrentBet - p.bet → p.chips < st.getCurrentBet - p.bet →
        st.getValidActions p = [FOLD])) := by
  obtain ⟨act, amt⟩ := a
  refine ⟨?_, ?_, ?_, ?_⟩
  · rintro (ha | ha) hcap
    all_goals
      subst ha
      unfold EngineState.handleAction
      dsimp only
      rw [if_pos ⟨hlim, hcap⟩]
  · rintro (ha | ha) hlt hne
    all_goals
      subst ha
      unfold EngineState.handleAction
      dsimp only
      rw [if_neg (by rintro ⟨-, h4⟩; omega), if_pos ⟨hlim, hne⟩]
  · rintro (ha | ha) st' hok
    all_goals
      subst ha
      unfold EngineState.handleAction at hok
      dsimp only at hok
      by_cases hc1 : st.config.limitBetting = true ∧ 4 ≤ st.raisesInRound
      · rw [if_pos hc1] at hok
        cases hok
      · rw [if_neg hc1] at hok
        by_cases hc2 : st.config.limitBetting = true ∧
          ensureIntegerOpt amt ≠ st.config.betLimit
        · rw [if_pos hc2] at hok
          cases hok
        · rw [if_neg hc2] at hok
          cases hok
          refine ⟨by simp [updatePlayer_raisesInRound, addToPot_raisesInRound], ?_⟩
          simp only [updatePlayer_bettingCapped, addToPot_bettingCapped]
          split_ifs with hcnew hcchips
          · exact ⟨fun _ => Or.inr hcnew.2, fun _ => rfl⟩
          · simp only [updatePlayer_bettingCapped, addToPot_bettingCapped]
            exact ⟨fun hb => Or.inl hb,
              fun hb => hb.resolve_right fun h4 => hcnew ⟨hlim, h4⟩⟩
          · simp only [updatePlayer_bettingCapped, addToPot_bettingCapped]
            exact ⟨fun hb => Or.inl hb,
              fun hb => hb.resolve_right fun h4 => hcnew ⟨hlim, h4⟩⟩
  · intro hcap
    have hcapped : st.bettingCapped = true ∨
        (st.config.limitBetting = true ∧ 4 ≤ st.raisesInRound) := by
      rcases hcap with h | h
      · exact Or.inl h
      · exact Or.inr ⟨hlim, h⟩
    refine ⟨?_, ?_, ?_⟩
    · intro h0
      unfold EngineState.getValidActions
      dsimp only
      rw [if_pos h0, if_neg (not_not_intro hcapped),
        if_neg (by rintro ⟨-, hnl⟩; exact hnl hlim)]
      simp
    · intro hpos haff
      unfold EngineState.getValidActions
      dsimp only
      rw [if_neg (by omega), if_pos haff, if_neg (not_not_intro hcapped),
        if_neg (by rintro ⟨-, hnl⟩; exact hnl hlim)]
      simp
    · intro hpos hbroke
      unfold EngineState.getValidActions
      dsimp only
      rw [if_neg (by omega), if_neg (by omega),
        if_neg (by rintro ⟨-, hnl⟩; exact hnl hlim)]
      simp

/-- A capped limit-mode state: four aggressive actions have occurred, A and
B have 20 in, E (5 chips) faces a 20-chip call. -/
def cappedStateW : EngineState :=
  { config := limitConfig,
    players := [{ mkPlayer "A" 980 with bet := 20 }, { mkPlayer "B" 980 with bet := 20 },
                mkPlayer "E" 5],
    pots := [{ id := 0, amount := 40, eligiblePlayers := ["A", "B", "E"],
               contributions := [("A", 20), ("B", 20)], isActive := true,
               maxContributionPerPlayer := none }],
    nextPotId := 1, phase := .PRE_DRAW, dealerButtonIndex := 0,
    currentPlayerIndex := 0, drawsRemaining := 3, playerHands := [],
    lastRaiser := some "B", bettingCapped := true, raisesInRound := 4 }

open GameAction in
/-- Closed witness for the amended C3 at the capped state, action RAISE 10,
facing player E. -/
theorem limit_betting_cap_amended_witness :
    cappedStateW.config.limitBetting = true ∧
    ((((⟨RAISE, some 10⟩ : ActionData).action = BET ∨
        (⟨RAISE, some 10⟩ : ActionData).action = RAISE) →
      4 ≤ cappedStateW.raisesInRound →
      cappedStateW.handleAction "A" ⟨RAISE, some 10⟩ =
        .error "Betting is capped in this round") ∧
    ((((⟨RAISE, some 10⟩ : ActionData).action = BET ∨
        (⟨RAISE, some 10⟩ : ActionData).action = RAISE)) →
      cappedStateW.raisesInRound < 4 →
      ensureIntegerOpt (⟨RAISE, some 10⟩ : ActionData).amount ≠
        cappedStateW.config.betLimit →
      cappedStateW.handleAction "A" ⟨RAISE, some 10⟩ =
        .error ("Raise must be exactly " ++ toString cappedStateW.config.betLimit)) ∧
    ((((⟨RAISE, some 10⟩ : ActionData).action = BET ∨
        (⟨RAISE, some 10⟩ : ActionData).action = RAISE)) → ∀ st',
      cappedStateW.handleAction "A" ⟨RAISE, some 10⟩ = .ok st' →
      st'.raisesInRound = cappedStateW.raisesInRound + 1 ∧
      (st'.bettingCapped = true ↔
        (cappedStateW.bettingCapped = true ∨ 4 ≤ cappedStateW.raisesInRound + 1))) ∧
    ((cappedStateW.bettingCapped = true ∨ 4 ≤ cappedStateW.raisesInRound) →
      (cappedStateW.getCurrentBet - (mkPlayer "E" 5).bet = 0 →
        cappedStateW.getValidActions (mkPlayer "E" 5) = [CHECK]) ∧
      (0 < cappedStateW.getCurrentBet - (mkPlayer "E" 5).bet →
        cappedStateW.getCurrentBet - (mkPlayer "E" 5).bet ≤ (mkPlayer "E" 5).chips →
        cappedStateW.getValidActions (mkPlayer "E" 5) = [FOLD, CALL]) ∧
      (0 < cappedStateW.getCurrentBet - (mkPlayer "E" 5).bet →
        (mkPlayer "E" 5).chips < cappedStateW.getCurrentBet - (mkPlayer "E" 5).bet →
        cappedStateW.getValidActions (mkPlayer "E" 5) = [FOLD]))) :=
  ⟨rfl, limit_betting_cap_amended cappedStateW "A" ⟨RAISE, some 10⟩ (mkPlayer "E" 5) rfl⟩

/-! ### Claim C8: rejection versus coercion of illegal actions -/

/-- Heads-up state in which B has bet 10 and A faces it. -/
def scenarioC8State : EngineState :=
  { config := limitConfig,
    players := [mkPlayer "A" 100, { mkPlayer "B" 90 with bet := 10 }],
    pots := [{ id := 0, amount := 10, eligiblePlayers := ["A", "B"],
               contributions := [("B", 10)], isActive := true,
               maxContributionPerPlayer := none }],
    nextPotId := 1, phase := .PRE_DRAW, dealerButtonIndex := 0,
    currentPlayerIndex := 0, drawsRemaining := 3, playerHands := [],
    lastRaiser := none, bettingCapped := false, raisesInRound := 0 }

/-- Claim C8 counterexample: the illegal CHECK (facing a 10-chip bet) is
thrown with a specific reason inside `handleAction`, but the engine's
prompt loop catches it and records the player as FOLDED with
`lastAction = FOLD` — the attempt is silently reinterpreted as a FOLD.
Likewise a 6-card discard is rejected inside `getDrawRequest`'s try block
yet recorded as a stand-pat. -/
theorem illegal_action_coercion_counterexample :
    scenarioC8State.handleAction "A" ⟨.CHECK, none⟩ =
      .error "Cannot check when there is a bet to match" ∧
    ((scenarioC8State.promptOutcome "A" ⟨.CHECK, none⟩).getPlayer "A").state =
      PlayerState.FOLDED ∧
    ((scenarioC8State.promptOutcome "A" ⟨.CHECK, none⟩).getPlayer "A").lastAction =
      some GameAction.FOLD ∧
    getDrawRequestInner 6 none = .error "Cannot discard more than 5 cards" ∧
    getDrawRequestOutcome 6 none = ⟨true, 0, []⟩ :=
  ⟨by rfl, by rfl, by rfl, by rfl, by rfl⟩

theorem find_map_update (l : List PlayerRec) (pid : String)
    (f : PlayerRec → PlayerRec) (hid : ∀ r, (f r).id = r.id) (q : PlayerRec)
    (hq : l.find? (·.id == pid) = some q) :
    (l.map fun p => if p.id == pid then f p else p).find? (·.id == pid) =
      some (f q) := by
  induction l with
  | nil => cases hq
  | cons p rest ih =>
    by_cases h : (p.id == pid) = true
    · rw [List.find?_cons, h] at hq
      cases hq
      simp only [List.map_cons, if_pos h]
      rw [List.find?_cons, hid, h]
    · rw [List.find?_cons, Bool.of_not_eq_true h] at hq
      simp only [List.map_cons, if_neg h]
      rw [List.find?_cons, Bool.of_not_eq_true h]
      exact ih hq

open GameAction in
/-- Claim C8 (amended): each illegal attempt is rejected inside
`handleAction` / `getDrawRequest` with its specific reason — checking when
a bet is outstanding, raising past the cap, raising by an amount other
than `betLimit`, discarding more than 5 cards — but the engine's prompt
wrapper catches every such rejection and coerces it: a rejected betting
action is replayed as a FOLD (the player ends FOLDED with
`lastAction = FOLD`), and a rejected discard is recorded as a stand-pat.
At the prompt level, illegal actions ARE reinterpreted. -/
theorem illegal_actions_rejected_then_coerced (st : EngineState) (pid : String)
    (q : PlayerRec) (hq : st.players.find? (·.id == pid) = some q) :
    (q.bet < st.getCurrentBet → st.handleAction pid ⟨CHECK, none⟩ =
      .error "Cannot check when there is a bet to match") ∧
    (st.config.limitBetting = true → 4 ≤ st.raisesInRound → ∀ amt,
      st.handleAction pid ⟨RAISE, amt⟩ = .error "Betting is capped in this round") ∧
    (st.config.limitBetting = true → st.raisesInRound < 4 → ∀ amt,
      ensureIntegerOpt amt ≠ st.config.betLimit →
      st.handleAction pid ⟨RAISE, amt⟩ =
        .error ("Raise must be exactly " ++ toString st.config.betLimit)) ∧
    (∀ n idx, 5 < n →
      getDrawRequestInner n idx = .error "Cannot discard more than 5 cards" ∧
      getDrawRequestOutcome n idx = ⟨true, 0, []⟩) ∧
    (∀ a e, st.handleAction pid a = .error e →
      (st.promptOutcome pid a).getPlayer pid =
        { q with state := PlayerState.FOLDED, hasActed := true,
                 lastAction := some FOLD }) := by
  have hgp : st.getPlayer pid = q := by
    unfold EngineState.getPlayer
    rw [hq]
    rfl
  refine ⟨?_, ?_, ?_, ?_, ?_⟩
  · intro hlt
    unfold EngineState.handleAction
    dsimp only
    rw [hgp, if_pos hlt]
  · intro hlim hcap amt
    unfold EngineState.handleAction
    dsimp only
    rw [if_pos ⟨hlim, hcap⟩]
  · intro hlim hlt amt hne
    unfold EngineState.handleAction
    dsimp only
    rw [if_neg (by rintro ⟨-, h4⟩; omega), if_pos ⟨hlim, hne⟩]
  · intro n idx h5
    constructor
    · unfold getDrawRequestInner
      rw [if_neg (by omega), if_pos (show MAX_DISCARD < n from h5)]
    · unfold getDrawRequestOutcome getDrawRequestInner
      rw [if_neg (by omega), if_pos (show MAX_DISCARD < n from h5)]
  · intro a e herr
    unfold EngineState.promptOutcome
    rw [herr]
    unfold EngineState.handleAction
    dsimp only
    unfold EngineState.getPlayer
    simp only [EngineState.updatePlayer]
    rw [find_map_update _ pid
      (fun p => { p with hasActed := true, lastAction := some FOLD }) (fun r => rfl) _
      (find_map_update _ pid
        (fun p => { p with state := PlayerState.FOLDED }) (fun r => rfl) q hq)]
    rfl

open GameAction in
/-- Closed witness for the amended C8 at the concrete facing-a-bet state. -/
theorem illegal_actions_rejected_then_coerced_witness :
    scenarioC8State.players.find? (·.id == "A") = some (mkPlayer "A" 100) ∧
    (((mkPlayer "A" 100).bet < scenarioC8State.getCurrentBet →
      scenarioC8State.handleAction "A" ⟨CHECK, none⟩ =
        .error "Cannot check when there is a bet to match") ∧
    (scenarioC8State.config.limitBetting = true → 4 ≤ scenarioC8State.raisesInRound →
      ∀ amt, scenarioC8State.handleAction "A" ⟨RAISE, amt⟩ =
        .error "Betting is capped in this round") ∧
    (scenarioC8State.config.limitBetting = true → scenarioC8State.raisesInRound < 4 →
      ∀ amt, ensureIntegerOpt amt ≠ scenarioC8State.config.betLimit →
      scenarioC8State.handleAction "A" ⟨RAISE, amt⟩ =
        .error ("Raise must be exactly " ++ toString scenarioC8State.config.betLimit)) ∧
    (∀ n idx, 5 < n →
      getDrawRequestInner n idx = .error "Cannot discard more than 5 cards" ∧
      getDrawRequestOutcome n idx = ⟨true, 0, []⟩) ∧
    (∀ a e, scenarioC8State.handleAction "A" a = .error e →
      (scenarioC8State.promptOutcome "A" a).getPlayer "A" =
        { mkPlayer "A" 100 with state := PlayerState.FOLDED, hasActed := true,
                                lastAction := some FOLD })) :=
  ⟨by rfl, illegal_actions_rejected_then_coerced scenarioC8State "A"
    (mkPlayer "A" 100) (by rfl)⟩
